import Mathlib

/-!
# CHIP-8 interpreter core: embedding of `src/src/CHIP8.cpp`

The machine state of the C++ module is a set of namespace-level arrays and
scalars.  They are gathered here in one structure that every operation takes
and returns.  Array cells and scalars are bounded naturals (`Fin 256` for a
`u8`, `Fin 65536` for a `u16`); all arithmetic is done on the underlying
naturals (or integers, where the C++ intermediate can be negative) and
narrowed back explicitly with `% 2^w`.  An array subscript that the C++ code
does not mask and that can leave the array is a `Fault`.
-/

namespace CHIP8

/-! ## Machine integers -/

abbrev u8 := Fin 256
abbrev u16 := Fin 65536

/-- Narrowing of a non-negative `int` to `u8`. -/
def to_u8 (n : Nat) : u8 := ⟨n % 256, Nat.mod_lt _ (by decide)⟩

/-- Narrowing of a non-negative `int` to `u16`. -/
def to_u16 (n : Nat) : u16 := ⟨n % 65536, Nat.mod_lt _ (by decide)⟩

/-- Narrowing of a possibly negative `int` to `u8`. -/
def int_to_u8 (i : Int) : u8 := ⟨(i % 256).toNat, by omega⟩

/-- Narrowing of a possibly negative `int` to `u16`. -/
def int_to_u16 (i : Int) : u16 := ⟨(i % 65536).toNat, by omega⟩

/-- The subscript `n & 0xFFF` into the 4096-byte memory. -/
def mask12 (n : Nat) : Fin 4096 :=
  ⟨n &&& 0xFFF, Nat.lt_succ_of_le Nat.and_le_right⟩

/-! ## Constants declared in the module interface -/

/-- Modelled from the spec: the declaration of `framebuffer_size` is not in
src; the spec gives a framebuffer of 64 x 32 = 2048 cells. -/
abbrev framebuffer_size : Nat := 2048

/-- Modelled from the spec: the declaration of `rom_start_addr` is not in
src; the spec gives the ROM load offset 0x200. -/
abbrev rom_start_addr : Nat := 0x200

/-! ## Collaborators -/

/-- Severity passed to `UserMessage::Show`. -/
inductive MessageType where
  | Warning
  | Error
  | Fatal
  deriving DecidableEq, Repr

/-- The texts the module formats for `UserMessage::Show`, with their
arguments. -/
inductive MessageText where
  | unknown_opcode (opcode : Nat)
  | could_not_open_file
  | rom_too_large (size max_rom_size : Nat)
  deriving DecidableEq, Repr

/-- One call of `UserMessage::Show`. -/
structure UserMessage where
  text : MessageText
  type : MessageType
  deriving DecidableEq, Repr

/-- What the collaborators hand to one instruction: the value returned by
`std::rand()` and the key latch as `Input::Await()` leaves it. -/
structure Env where
  rand : Nat
  awaited : Fin 16 → Bool

/-- An array subscript outside the array. -/
inductive Fault where
  | out_of_bounds
  deriving DecidableEq, Repr

/-! ## Machine state -/

/-- The namespace-level state of the module.  The element types and sizes
come from the spec's data model (the declarations are in the module
interface, which is not in src): 4096 memory bytes, 16 byte registers, 16
16-bit stack slots, 16 key states, 2048 framebuffer cells.  `shown` is the
record of the calls of `UserMessage::Show`, the diagnostic sink; `played`
counts the calls of `Audio::PlayFile` and `rendered` the calls of
`Video::RenderGame`. -/
structure State where
  framebuffer : Fin 2048 → u8
  key : Fin 16 → Bool
  memory : Fin 4096 → u8
  stack : Fin 16 → u16
  v : Fin 16 → u8
  delay_timer : u8
  sound_timer : u8
  index : u16
  pc : u16
  sp : u16
  shown : List UserMessage
  played : Nat
  rendered : Nat

/-- The assignment `v[i] = b`. -/
def State.setV (s : State) (i : Fin 16) (b : u8) : State :=
  { s with v := Function.update s.v i b }

/-- The assignment `memory[i] = b`. -/
def State.setMem (s : State) (i : Fin 4096) (b : u8) : State :=
  { s with memory := Function.update s.memory i b }

/-- The call `UserMessage::Show(text, type)`. -/
def State.Show (s : State) (text : MessageText) (type : MessageType) : State :=
  { s with shown := s.shown ++ [⟨text, type⟩] }

/-- The lambda `GetX`: `opcode >> 8 & 0xF`. -/
def GetX (opcode : Nat) : Fin 16 :=
  ⟨(opcode >>> 8) &&& 0xF, Nat.lt_succ_of_le Nat.and_le_right⟩

/-- The lambda `GetY`: `opcode >> 4 & 0xF`. -/
def GetY (opcode : Nat) : Fin 16 :=
  ⟨(opcode >>> 4) &&& 0xF, Nat.lt_succ_of_le Nat.and_le_right⟩

/-- The C++ conversion of a `bool` to an integer. -/
def of_bool (b : Bool) : u8 := if b then 1 else 0

/-! ## `DecodeAndExecuteInstruction` -/

/-- Case 8 of the switch: the register-register instructions. -/
def exec_case_8 (s : State) (opcode : Nat) : State :=
  let x := GetX opcode
  let y := GetY opcode
  let n := opcode &&& 0xF
  if n = 0 then s.setV x (s.v y)
  else if n = 1 then s.setV x (to_u8 ((s.v x).val ||| (s.v y).val))
  else if n = 2 then s.setV x (to_u8 ((s.v x).val &&& (s.v y).val))
  else if n = 3 then s.setV x (to_u8 ((s.v x).val ^^^ (s.v y).val))
  else if n = 4 then
    let s1 := s.setV 0xF (of_bool (decide ((s.v y).val > 0xFF - (s.v x).val)))
    s1.setV x (to_u8 ((s1.v x).val + (s1.v y).val))
  else if n = 5 then
    let s1 := s.setV 0xF (of_bool (decide ((s.v y).val ≤ (s.v x).val)))
    s1.setV x (int_to_u8 (((s1.v x).val : Int) - ((s1.v y).val : Int)))
  else if n = 6 then
    let s1 := s.setV 0xF (to_u8 ((s.v x).val &&& 0x01))
    s1.setV x (to_u8 ((s1.v x).val >>> 1))
  else if n = 7 then
    let s1 := s.setV 0xF (of_bool (decide ((s.v y).val ≥ (s.v x).val)))
    s1.setV x (int_to_u8 (((s1.v y).val : Int) - ((s1.v x).val : Int)))
  else if n = 0xE then
    let s1 := s.setV 0xF (to_u8 ((s.v x).val >>> 7))
    s1.setV x (to_u8 ((s1.v x).val <<< 1))
  else s.Show (.unknown_opcode opcode) .Fatal

/-- Body of the inner loop of Dxyn for one `xline`. -/
def draw_pixel (vx vy pixel yline : Nat) (s : State) (xline : Nat) : State :=
  let framebuffer_pos : Fin 2048 :=
    ⟨(vx + xline + ((vy + yline) * 64)) % framebuffer_size, Nat.mod_lt _ (by decide)⟩
  if (pixel &&& (0x80 >>> xline)) ≠ 0 then
    let s1 := if (s.framebuffer framebuffer_pos).val ≠ 0 then s.setV 0xF 1 else s
    { s1 with
      framebuffer := Function.update s1.framebuffer framebuffer_pos (to_u8 ((s1.framebuffer framebuffer_pos).val ^^^ 0xFF)) }
  else s

/-- Body of the outer loop of Dxyn for one `yline`. -/
def draw_row (vx vy : Nat) (s : State) (yline : Nat) : State :=
  let pixel := (s.memory (mask12 (s.index.val + yline))).val
  (List.range 8).foldl (draw_pixel vx vy pixel yline) s

/-- Case 0xD of the switch: Dxyn, DRW. -/
def exec_case_D (s : State) (opcode : Nat) : State :=
  let vx := (s.v (GetX opcode)).val
  let vy := (s.v (GetY opcode)).val
  let height := opcode &&& 0xF
  let s1 := s.setV 0xF 0
  (List.range height).foldl (draw_row vx vy) s1

/-- Case 0xE of the switch: the key skips.  `key` has 16 entries and is
subscripted with the whole byte `v[x]`. -/
def exec_case_E (s : State) (opcode : Nat) : Except Fault State :=
  if opcode &&& 0xFF = 0x9E then
    if h : (s.v (GetX opcode)).val < 16 then
      if s.key ⟨(s.v (GetX opcode)).val, h⟩ then .ok { s with pc := to_u16 (s.pc.val + 2) }
      else .ok s
    else .error .out_of_bounds
  else if opcode &&& 0xFF = 0xA1 then
    if h : (s.v (GetX opcode)).val < 16 then
      if !(s.key ⟨(s.v (GetX opcode)).val, h⟩) then .ok { s with pc := to_u16 (s.pc.val + 2) }
      else .ok s
    else .error .out_of_bounds
  else .ok (s.Show (.unknown_opcode opcode) .Fatal)

/-- The register subscript `v[i]` of the loops of Fx55 and Fx65, where
`i <= x <= 15`. -/
def reg (i : Nat) : Fin 16 := ⟨i % 16, Nat.mod_lt _ (by decide)⟩

/-- Case 0xF of the switch. -/
def exec_case_F (env : Env) (s : State) (opcode : Nat) : Except Fault State :=
  let n := opcode &&& 0xFF
  if n = 0x07 then .ok (s.setV (GetX opcode) s.delay_timer)
  else if n = 0x0A then
    let prev_key := s.key
    let s1 : State := { s with key := env.awaited }
    match (List.finRange 16).find? (fun i => s1.key i != prev_key i) with
    | some i => .ok (s1.setV (GetX opcode) (to_u8 (i.val &&& 0xFF)))
    | none => .ok s1
  else if n = 0x15 then .ok { s with delay_timer := s.v (GetX opcode) }
  else if n = 0x18 then .ok { s with sound_timer := s.v (GetX opcode) }
  else if n = 0x1E then .ok { s with index := to_u16 (s.index.val + (s.v (GetX opcode)).val) }
  else if n = 0x29 then .ok { s with index := to_u16 ((s.v (GetX opcode)).val * 5) }
  else if n = 0x33 then
    let x := GetX opcode
    if h0 : s.index.val < 4096 then
      let s1 := s.setMem ⟨s.index.val, h0⟩ (to_u8 ((s.v x).val / 100))
      if h1 : s1.index.val + 1 < 4096 then
        let s2 := s1.setMem ⟨s1.index.val + 1, h1⟩ (to_u8 (((s1.v x).val / 10) % 10))
        if h2 : s2.index.val + 2 < 4096 then
          .ok (s2.setMem ⟨s2.index.val + 2, h2⟩ (to_u8 ((s2.v x).val % 10)))
        else .error .out_of_bounds
      else .error .out_of_bounds
    else .error .out_of_bounds
  else if n = 0x55 then
    let x := GetX opcode
    .ok ((List.range (x.val + 1)).foldl
      (fun t i => t.setMem (mask12 (t.index.val + i)) (t.v (reg i))) s)
  else if n = 0x65 then
    let x := GetX opcode
    .ok ((List.range (x.val + 1)).foldl
      (fun t i => t.setV (reg i) (t.memory (mask12 (t.index.val + i)))) s)
  else .ok (s.Show (.unknown_opcode opcode) .Fatal)

/-- The function `DecodeAndExecuteInstruction(u16 opcode)`.  The switch on
`opcode >> 12` is the chain of tests on `opcode >>> 12`; every case ends in
`break`.  The stack pointer is taken as a `u16` like `index` and `pc`. -/
def DecodeAndExecuteInstruction (env : Env) (s : State) (opcode : Nat) :
    Except Fault State :=
  let c := opcode >>> 12
  if c = 0 then
    if opcode = 0x00E0 then .ok { s with framebuffer := fun _ => 0 }
    else if opcode = 0x00EE then
      if h : s.sp.val < 16 then
        .ok { s with pc := s.stack ⟨s.sp.val, h⟩, sp := int_to_u16 ((s.sp.val : Int) - 1) }
      else .error .out_of_bounds
    else .ok (s.Show (.unknown_opcode opcode) .Fatal)
  else if c = 1 then .ok { s with pc := to_u16 (opcode &&& 0xFFF) }
  else if c = 2 then
    let sp1 := to_u16 (s.sp.val + 1)
    if h : sp1.val < 16 then
      .ok { s with
        sp := sp1
        stack := Function.update s.stack ⟨sp1.val, h⟩ (to_u16 (s.pc.val &&& 0xFF))
        pc := to_u16 (opcode &&& 0xFFF) }
    else .error .out_of_bounds
  else if c = 3 then
    if (s.v (GetX opcode)).val = (opcode &&& 0xFF) then .ok { s with pc := to_u16 (s.pc.val + 2) }
    else .ok s
  else if c = 4 then
    if (s.v (GetX opcode)).val ≠ (opcode &&& 0xFF) then .ok { s with pc := to_u16 (s.pc.val + 2) }
    else .ok s
  else if c = 5 then
    if s.v (GetX opcode) = s.v (GetY opcode) then .ok { s with pc := to_u16 (s.pc.val + 2) }
    else .ok s
  else if c = 6 then .ok (s.setV (GetX opcode) (to_u8 (opcode &&& 0xFF)))
  else if c = 7 then
    .ok (s.setV (GetX opcode) (to_u8 ((s.v (GetX opcode)).val + (opcode &&& 0xFF))))
  else if c = 8 then .ok (exec_case_8 s opcode)
  else if c = 9 then
    if s.v (GetX opcode) ≠ s.v (GetY opcode) then .ok { s with pc := to_u16 (s.pc.val + 2) }
    else .ok s
  else if c = 0xA then .ok { s with index := to_u16 (opcode &&& 0xFFF) }
  else if c = 0xB then .ok { s with pc := to_u16 ((opcode + (s.v 0).val) &&& 0xFFF) }
  else if c = 0xC then .ok (s.setV (GetX opcode) (to_u8 (env.rand &&& opcode &&& 0xFF)))
  else if c = 0xD then .ok (exec_case_D s opcode)
  else if c = 0xE then exec_case_E s opcode
  else if c = 0xF then exec_case_F env s opcode
  else .ok s

/-! ## `Reset`, `LoadRom`, `StepCycle` -/

/-- The call `std::copy(src.begin(), src.end(), dest.begin() + start)`. -/
def std_copy (src : List u8) (dest : Fin 4096 → u8) (start : Nat) : Fin 4096 → u8 :=
  fun i =>
    if h : start ≤ i.val ∧ i.val < start + src.length then src.get ⟨i.val - start, by omega⟩
    else dest i

/-- The call `std::fill(dest.begin(), dest.begin() + count, value)`. -/
def std_fill (dest : Fin 4096 → u8) (count : Nat) (value : u8) : Fin 4096 → u8 :=
  fun i => if i.val < count then value else dest i

/-- The table `fontset` of `Reset`. -/
def fontset : List u8 := [
  0xF0, 0x90, 0x90, 0x90, 0xF0,
  0x20, 0x60, 0x20, 0x20, 0x70,
  0xF0, 0x10, 0xF0, 0x80, 0xF0,
  0xF0, 0x10, 0xF0, 0x10, 0xF0,
  0x90, 0x90, 0xF0, 0x10, 0x10,
  0xF0, 0x80, 0xF0, 0x10, 0xF0,
  0xF0, 0x80, 0xF0, 0x90, 0xF0,
  0xF0, 0x10, 0x20, 0x40, 0x40,
  0xF0, 0x90, 0xF0, 0x90, 0xF0,
  0xF0, 0x90, 0xF0, 0x10, 0xF0,
  0xF0, 0x90, 0xF0, 0x90, 0x90,
  0xE0, 0x90, 0xE0, 0x90, 0xE0,
  0xF0, 0x80, 0x80, 0x80, 0xF0,
  0xE0, 0x90, 0x90, 0x90, 0xE0,
  0xF0, 0x80, 0xF0, 0x80, 0xF0,
  0xF0, 0x80, 0xF0, 0x80, 0x80]

/-- The function `Reset()`. -/
def Reset (s : State) : State :=
  let s1 : State := { s with delay_timer := 60, sound_timer := 60 }
  let s2 : State := { s1 with index := 0, pc := 0x200, sp := 0 }
  let s3 : State := { s2 with
    framebuffer := fun _ => 0
    key := fun _ => false
    stack := fun _ => 0
    v := fun _ => 0 }
  let s4 : State := { s3 with memory := std_fill s3.memory rom_start_addr 0 }
  { s4 with memory := std_copy fontset s4.memory 0 }

/-- The function `LoadRom(path)`.  `opt_rom` is what
`Util::Files::LoadBinaryFileVec(path)` returns; `memory.size()` is 4096. -/
def LoadRom (opt_rom : Option (List u8)) (s : State) : Bool × State :=
  match opt_rom with
  | none => (false, s.Show .could_not_open_file .Error)
  | some rom =>
    let max_rom_size := 4096 - rom_start_addr
    if rom.length > max_rom_size then
      (false, s.Show (.rom_too_large rom.length max_rom_size) .Error)
    else
      (true, { s with memory := std_copy rom s.memory rom_start_addr })

/-- The function `StepCycle()`.  The first fetch subscript `memory[pc]` is
not masked. -/
def StepCycle (env : Env) (s : State) : Except Fault State :=
  if h : s.pc.val < 4096 then
    let opcode : u16 :=
      to_u16 (((s.memory ⟨s.pc.val, h⟩).val <<< 8) ||| (s.memory (mask12 (s.pc.val + 1))).val)
    let s1 : State := { s with pc := to_u16 ((s.pc.val + 2) &&& 0xFFF) }
    DecodeAndExecuteInstruction env s1 opcode.val
  else .error .out_of_bounds

/-- The function `UpdateTimers()`. -/
def UpdateTimers (s : State) : State :=
  let s1 : State :=
    if s.delay_timer.val > 0 then { s with delay_timer := int_to_u8 ((s.delay_timer.val : Int) - 1) }
    else s
  if s1.sound_timer.val > 0 then
    let s2 : State := { s1 with sound_timer := int_to_u8 ((s1.sound_timer.val : Int) - 1) }
    { s2 with played := s2.played + 1 }
  else s1

/-- The loop `for (uint i = 0; i < num_instructions; ++i) StepCycle();` of
`Run()`, from the counter value `i` on; `fuel` bounds the iterations that are
left.  A fault ends the loop. -/
def run_loop (env : Env) (num_instructions : Nat) : Nat → Nat → State → Except Fault State
  | 0, _, s => .ok s
  | fuel + 1, i, s =>
    if i < num_instructions then
      match StepCycle env s with
      | .ok s1 => run_loop env num_instructions fuel (i + 1) s1
      | .error e => .error e
    else .ok s

/-- The function `Run()`.  `instructions_per_second` is the module variable
of that name (an unsigned integer set by `SetNumInstructionsPerSecond`), and
the call `Video::RenderGame()` is counted in `rendered`. -/
def Run (env : Env) (instructions_per_second : Nat) (s : State) : Except Fault State :=
  let num_instructions := instructions_per_second / 60
  match run_loop env num_instructions num_instructions 0 s with
  | .ok s1 =>
    let s2 := UpdateTimers s1
    .ok { s2 with rendered := s2.rendered + 1 }
  | .error e => .error e

/-- The function `Initialize()`.  The three calls into `Video` hand over the
framebuffer pointer, its size and the pixel format and leave the module state
as it is. -/
def Initialize (s : State) : State :=
  let s1 := Reset s
  { s1 with memory := fun _ => 0 }

/-! ## `StreamState` -/

/-- Direction of a `SerializationStream`. -/
inductive StreamMode where
  | save
  | load
  deriving DecidableEq, Repr

/-- Modelled from the spec: the class `SerializationStream` is not in src.
The spec has the codec serialize and deserialize the fields in a fixed
order; a stream is the sequence of the values written so far (save mode) or
still to be read (load mode), one value per primitive or array element. -/
structure SerializationStream where
  mode : StreamMode
  data : List Nat

/-- Modelled from the spec: `SerializationStream::StreamPrimitive` is not in
src.  In save mode the value is appended to the stream; in load mode the next
value of the stream replaces it. -/
def SerializationStream.StreamPrimitive {α : Type} (enc : α → Nat) (dec : Nat → α)
    (stream : SerializationStream) (value : α) : SerializationStream × α :=
  match stream.mode with
  | .save => ({ stream with data := stream.data ++ [enc value] }, value)
  | .load => ({ stream with data := stream.data.drop 1 }, dec (stream.data.getD 0 0))

/-- Modelled from the spec: `SerializationStream::StreamArray` is not in src.
In save mode the elements are appended in order; in load mode the next `n`
values of the stream replace them. -/
def SerializationStream.StreamArray {α : Type} {n : Nat} (enc : α → Nat) (dec : Nat → α)
    (stream : SerializationStream) (arr : Fin n → α) : SerializationStream × (Fin n → α) :=
  match stream.mode with
  | .save => ({ stream with data := stream.data ++ (List.ofFn arr).map enc }, arr)
  | .load => ({ stream with data := stream.data.drop n }, fun i => dec (stream.data.getD i.val 0))

/-- Stream encoding of a `u8`. -/
def enc_u8 (b : u8) : Nat := b.val

/-- Stream encoding of a `u16`. -/
def enc_u16 (b : u16) : Nat := b.val

/-- Stream encoding of a `bool`. -/
def enc_bool (b : Bool) : Nat := if b then 1 else 0

/-- Stream decoding of a `bool`. -/
def dec_bool (n : Nat) : Bool := decide (n ≠ 0)

/-- The function `StreamState(stream)`.  Each call returns the stream and
the streamed object as it leaves them. -/
def StreamState (stream : SerializationStream) (s : State) : SerializationStream × State :=
  let r1 := stream.StreamArray enc_u8 to_u8 s.framebuffer
  let r2 := r1.1.StreamArray enc_bool dec_bool s.key
  let r3 := r2.1.StreamArray enc_u8 to_u8 s.memory
  let r4 := r3.1.StreamArray enc_u16 to_u16 s.stack
  let r5 := r4.1.StreamArray enc_u8 to_u8 s.v
  let r6 := r5.1.StreamPrimitive enc_u8 to_u8 s.delay_timer
  let r7 := r6.1.StreamPrimitive enc_u8 to_u8 r6.2
  let r8 := r7.1.StreamPrimitive enc_u16 to_u16 s.index
  let r9 := r8.1.StreamPrimitive enc_u16 to_u16 s.pc
  let r10 := r9.1.StreamPrimitive enc_u16 to_u16 s.sp
  (r10.1,
    { s with
      framebuffer := r1.2
      key := r2.2
      memory := r3.2
      stack := r4.2
      v := r5.2
      delay_timer := r7.2
      index := r8.2
      pc := r9.2
      sp := r10.2 })

/-- Save `s` to an empty stream and read the stream back into `t`. -/
def save_then_load (s t : State) : State :=
  let saved := (StreamState ⟨.save, []⟩ s).1
  (StreamState ⟨.load, saved.data⟩ t).2

/-! ## Instruction words and sample states -/

/-- The instruction word with the four nibbles `c x y n`. -/
def word (c x y n : Nat) : Nat := c * 0x1000 + x * 0x100 + y * 0x10 + n

/-- A machine state with every cell zero and nothing shown. -/
def blank : State :=
  { framebuffer := fun _ => 0
    key := fun _ => false
    memory := fun _ => 0
    stack := fun _ => 0
    v := fun _ => 0
    delay_timer := 0
    sound_timer := 0
    index := 0
    pc := 0
    sp := 0
    shown := []
    played := 0
    rendered := 0 }

/-- Collaborators that return zero and leave the key latch released. -/
def quiet : Env := { rand := 0, awaited := fun _ => false }

/-- A state about to execute a CALL fetched at 0x200: PC = 0x202, sp = 0. -/
def at_0x202 : State := { blank with pc := 0x202 }

/-- The given number of successive calls of `StepCycle()`, as in the loop of
`Run()`; a fault ends the run. -/
def step_cycles (env : Env) : Nat → State → Except Fault State
  | 0, s => .ok s
  | n + 1, s =>
    match StepCycle env s with
    | .ok s1 => step_cycles env n s1
    | .error e => .error e

/-- The state after `Reset()` and memory with the given ROM bytes at the
given addresses. -/
def reset_with (bytes : List (Fin 4096 × u8)) : State :=
  Reset (bytes.foldl (fun s b => s.setMem b.1 b.2) blank)

/-- ROM: at 0x200 `1FFC` (JP 0xFFC); at 0xFFC `3000` (SE V0, 0). -/
def rom_skip_at_end : State :=
  reset_with [(0x200, 0x1F), (0x201, 0xFC), (0xFFC, 0x30), (0xFFD, 0x00)]

/-- ROM at 0x200: `AFFF` (LD I, 0xFFF); `60FF` (LD V0, 0xFF); `F01E`
(ADD I, V0); `F033` (LD B, V0). -/
def rom_bcd_past_end : State :=
  reset_with [(0x200, 0xAF), (0x201, 0xFF), (0x202, 0x60), (0x203, 0xFF),
    (0x204, 0xF0), (0x205, 0x1E), (0x206, 0xF0), (0x207, 0x33)]

/-! ## Sprite drawing, cell by cell -/

/-- The framebuffer subscript `framebuffer_pos` that Dxyn computes for the
sprite cell in row `yline` and column `xline`. -/
def cell_pos (vx vy yline xline : Nat) : Fin 2048 :=
  ⟨(vx + xline + ((vy + yline) * 64)) % framebuffer_size, Nat.mod_lt _ (by decide)⟩

/-- What Dxyn does at a framebuffer cell whose sprite bit is set: raise VF if
the cell is lit, then XOR the cell with 0xFF. -/
def plot (s : State) (p : Fin 2048) : State :=
  let s1 := if (s.framebuffer p).val ≠ 0 then s.setV 0xF 1 else s
  { s1 with
    framebuffer := Function.update s1.framebuffer p (to_u8 ((s1.framebuffer p).val ^^^ 0xFF)) }

/-- The framebuffer subscripts of the set bits of the sprite byte `pixel`
drawn as row `yline`, in loop order. -/
def row_hits (vx vy pixel yline : Nat) : List (Fin 2048) :=
  ((List.range 8).filter (fun xline => decide ((pixel &&& (0x80 >>> xline)) ≠ 0))).map
    (cell_pos vx vy yline)

/-- The framebuffer subscripts of all set bits of the sprite of `height`
rows read from `memory` at `index`, in loop order. -/
def sprite_hits (memory : Fin 4096 → u8) (index vx vy height : Nat) : List (Fin 2048) :=
  (List.range height).flatMap
    (fun yline => row_hits vx vy (memory (mask12 (index + yline))).val yline)

/-- A byte XORed with 0xFF. -/
def flip_cell (b : u8) : u8 := to_u8 (b.val ^^^ 0xFF)

/-- The documented opcode patterns, in the spec's words: 00E0, 00EE, 1nnn,
2nnn, 3xkk, 4xkk, 5xy0, 6xkk, 7xkk, 8xy0..8xy7, 8xyE, 9xy0, Annn, Bnnn, Cxkk,
Dxyn, Ex9E, ExA1, Fx07, Fx0A, Fx15, Fx18, Fx1E, Fx29, Fx33, Fx55, Fx65. -/
def documented (opcode : Nat) : Bool :=
  let c := opcode >>> 12
  let n := opcode &&& 0xF
  let kk := opcode &&& 0xFF
  opcode == 0x00E0 || opcode == 0x00EE ||
  c == 1 || c == 2 || c == 3 || c == 4 || (c == 5 && n == 0) || c == 6 || c == 7 ||
  (c == 8 && (n == 0 || n == 1 || n == 2 || n == 3 || n == 4 || n == 5 || n == 6 || n == 7 ||
    n == 0xE)) ||
  (c == 9 && n == 0) || c == 0xA || c == 0xB || c == 0xC || c == 0xD ||
  (c == 0xE && (kk == 0x9E || kk == 0xA1)) ||
  (c == 0xF && (kk == 0x07 || kk == 0x0A || kk == 0x15 || kk == 0x18 || kk == 0x1E ||
    kk == 0x29 || kk == 0x33 || kk == 0x55 || kk == 0x65))

/-- The blank state with VF = `b`. -/
def vf_is (b : u8) : State := blank.setV 0xF b

/-- A state whose sound timer is 1. -/
def last_tick : State := { blank with sound_timer := 1 }

/-- A state with V0 = 0x10, one past the last key number. -/
def key_16 : State := blank.setV 0 0x10

/-- The blank state with the ROM bytes `60 a 61 b 80 14` at 0x200 (LD V0, a;
LD V1, b; ADD V0, V1). -/
def add_rom (a b : u8) : State :=
  [((0x200 : Fin 4096), (0x60 : u8)), (0x201, a), (0x202, 0x61), (0x203, b), (0x204, 0x80),
    (0x205, 0x14)].foldl (fun s m => s.setMem m.1 m.2) blank

/-- The blank state with the ROM bytes `00 E0 12 00` at 0x200 (CLS;
JP 0x200). -/
def cls_jp_rom : State :=
  [((0x200 : Fin 4096), (0x00 : u8)), (0x201, 0xE0), (0x202, 0x12), (0x203, 0x00)].foldl
    (fun s m => s.setMem m.1 m.2) blank

/-- The first `n` iterations of the loop of Fx55. -/
def store_loop (n : Nat) (s : State) : State :=
  (List.range n).foldl (fun t i => t.setMem (mask12 (t.index.val + i)) (t.v (reg i))) s

/-- The first `n` iterations of the loop of Fx65. -/
def load_loop (n : Nat) (s : State) : State :=
  (List.range n).foldl (fun t i => t.setV (reg i) (t.memory (mask12 (t.index.val + i)))) s

/-- The cells that Dxyn toggles, in the spec's words: cell `p` is toggled
when there are a row r in 0..n-1 and a column c in 0..7 such that bit (7 - c)
of `memory[(I + r) & 0xFFF]` is set and
p = (Vx + c + 64 * (Vy + r)) mod 2048. -/
def toggled_by_sprite (s : State) (x y : Fin 16) (n : Nat) (p : Fin 2048) : Prop :=
  ∃ r c, r < n ∧ c < 8 ∧
    (s.memory (mask12 (s.index.val + r))).val.testBit (7 - c) = true ∧
    p.val = ((s.v x).val + c + 64 * ((s.v y).val + r)) % 2048

/-- The state after `Reset()` with every framebuffer cell lit (0xFF); its
memory holds the fontset, I = 0 and V0 = V1 = 0. -/
def lit_screen : State := { Reset blank with framebuffer := fun _ => 0xFF }

/-- A state with V3 = 254 and I = 0x300. -/
def bcd_254 : State := { blank.setV 3 254 with index := 0x300 }

/-! ## Decoding lemmas -/

theorem shr_eq_div (n k : Nat) : n >>> k = n / 2 ^ k := Nat.shiftRight_eq_div_pow n k

theorem and_0xF (n : Nat) : n &&& 0xF = n % 16 := Nat.and_pow_two_sub_one_eq_mod n 4

theorem and_0xFF (n : Nat) : n &&& 0xFF = n % 256 := Nat.and_pow_two_sub_one_eq_mod n 8

theorem and_0xFFF (n : Nat) : n &&& 0xFFF = n % 4096 := Nat.and_pow_two_sub_one_eq_mod n 12

theorem word_shr12 (c : Nat) (x y : Fin 16) (n : Nat) (hn : n < 16) :
    word c x y n >>> 12 = c := by
  simp only [word, shr_eq_div]; omega

theorem word_GetX (c : Nat) (x y : Fin 16) (n : Nat) (hn : n < 16) :
    GetX (word c x y n) = x := by
  apply Fin.ext; simp only [GetX, word, shr_eq_div, and_0xF]; omega

theorem word_GetY (c : Nat) (x y : Fin 16) (n : Nat) (hn : n < 16) :
    GetY (word c x y n) = y := by
  apply Fin.ext; simp only [GetY, word, shr_eq_div, and_0xF]; omega

theorem word_and_0xF (c : Nat) (x y : Fin 16) (n : Nat) (hn : n < 16) :
    word c x y n &&& 0xF = n := by
  simp only [word, and_0xF]; omega

/-! ## 8xy4 and 8xy5 -/

theorem exec_8xy4 (env : Env) (s : State) (x y : Fin 16) :
    DecodeAndExecuteInstruction env s (word 8 x y 4) =
      .ok ((s.setV 0xF (of_bool (decide ((s.v y).val > 0xFF - (s.v x).val)))).setV x
        (to_u8 (((s.setV 0xF (of_bool (decide ((s.v y).val > 0xFF - (s.v x).val)))).v x).val +
          ((s.setV 0xF (of_bool (decide ((s.v y).val > 0xFF - (s.v x).val)))).v y).val))) := by
  simp only [DecodeAndExecuteInstruction, exec_case_8, word_shr12 8 x y 4 (by decide),
    word_GetX 8 x y 4 (by decide), word_GetY 8 x y 4 (by decide), word_and_0xF 8 x y 4 (by decide)]
  simp

theorem of_bool_val (p : Prop) [Decidable p] : (of_bool (decide p)).val = if p then 1 else 0 := by
  by_cases h : p <;> simp [of_bool, h]

theorem exec_2nnn (env : Env) (s : State) (nnn : Nat) (hn : nnn < 0x1000)
    (hsp : s.sp.val + 1 < 16) :
    DecodeAndExecuteInstruction env s (0x2000 + nnn) =
      .ok { s with
        sp := to_u16 (s.sp.val + 1)
        stack := Function.update s.stack ⟨s.sp.val + 1, hsp⟩ (to_u16 (s.pc.val &&& 0xFF))
        pc := to_u16 nnn } := by
  have hc : (0x2000 + nnn) >>> 12 = 2 := by rw [shr_eq_div]; omega
  have ha : (0x2000 + nnn) &&& 0xFFF = nnn := by rw [and_0xFFF]; omega
  have hv : (to_u16 (s.sp.val + 1)).val = s.sp.val + 1 := by
    simp only [to_u16]; omega
  have hlt : (to_u16 (s.sp.val + 1)).val < 16 := by omega
  simp only [DecodeAndExecuteInstruction, hc, ha]
  simp only [show ¬ (2 = 0) by decide, show ¬ (2 = 1) by decide, if_false, if_true,
    dif_pos hlt]
  simp only [hv]

theorem exec_00EE (env : Env) (s : State) (hsp : s.sp.val < 16) :
    DecodeAndExecuteInstruction env s 0x00EE =
      .ok { s with pc := s.stack ⟨s.sp.val, hsp⟩, sp := int_to_u16 ((s.sp.val : Int) - 1) } := by
  simp [DecodeAndExecuteInstruction, hsp]

/-- C2 (what the code does): for sp <= 14 and nnn < 0x1000, 2nnn sets
PC = nnn and sp = sp + 1, and a following 00EE restores sp but sets PC to the
low byte of the PC that was current at the CALL, since the CALL pushed
`pc & 0xFF`. -/
theorem call_then_ret (env : Env) (s : State) (nnn : Nat) (hn : nnn < 0x1000)
    (hsp : s.sp.val ≤ 14) :
    ∃ s1 s2, DecodeAndExecuteInstruction env s (0x2000 + nnn) = .ok s1 ∧
      DecodeAndExecuteInstruction env s1 0x00EE = .ok s2 ∧
      s1.pc.val = nnn ∧ s1.sp.val = s.sp.val + 1 ∧
      s2.sp = s.sp ∧ s2.pc.val = s.pc.val % 256 := by
  have h1 : s.sp.val + 1 < 16 := by omega
  have hv : (to_u16 (s.sp.val + 1)).val = s.sp.val + 1 := by
    simp only [to_u16]; omega
  refine ⟨_, _, exec_2nnn env s nnn hn h1, exec_00EE env _ (by simp only [hv]; exact h1), ?_, ?_, ?_, ?_⟩
  · simp only [to_u16]; omega
  · exact hv
  · apply Fin.ext
    simp only [int_to_u16, hv]
    omega
  · have hp := s.pc.isLt
    have hlt : (to_u16 (s.sp.val + 1)).val < 16 := by omega
    have hstk : (Function.update s.stack ⟨s.sp.val + 1, h1⟩ (to_u16 (s.pc.val &&& 0xFF)))
        ⟨(to_u16 (s.sp.val + 1)).val, hlt⟩ = to_u16 (s.pc.val &&& 0xFF) := by
      rw [show (⟨(to_u16 (s.sp.val + 1)).val, hlt⟩ : Fin 16) = ⟨s.sp.val + 1, h1⟩ from
        Fin.ext hv, Function.update_same]
    show ((Function.update s.stack ⟨s.sp.val + 1, h1⟩ (to_u16 (s.pc.val &&& 0xFF)))
        ⟨(to_u16 (s.sp.val + 1)).val, hlt⟩).val = s.pc.val % 256
    rw [hstk]
    simp only [to_u16, and_0xFF]
    omega

/-- C2 (failing input): from PC = 0x202 and sp = 0, CALL 0x300 followed by
RET ends with PC = 0x002, not 0x202. -/
theorem call_then_ret_at_0x202 :
    at_0x202.pc.val = 0x202 ∧ at_0x202.sp.val = 0 ∧
    ∃ s1 s2, DecodeAndExecuteInstruction quiet at_0x202 (0x2000 + 0x300) = .ok s1 ∧
      DecodeAndExecuteInstruction quiet s1 0x00EE = .ok s2 ∧
      s1.pc.val = 0x300 ∧ s1.sp.val = 1 ∧ s2.sp.val = 0 ∧ s2.pc.val = 0x002 := by
  obtain ⟨s1, s2, h1, h2, h3, h4, h5, h6⟩ :=
    call_then_ret quiet at_0x202 0x300 (by decide) (by decide)
  refine ⟨by decide, by decide, s1, s2, h1, h2, h3, h4, ?_, ?_⟩
  · rw [h5]; decide
  · rw [h6]; decide

/-! ## `Reset` -/

theorem fontset_length : fontset.length = 0x50 := rfl

theorem Reset_memory (s : State) (i : Fin 4096) :
    (Reset s).memory i =
      if h : i.val < 0x50 then fontset.get ⟨i.val, by rw [fontset_length]; exact h⟩
      else if i.val < 0x200 then 0 else s.memory i := by
  simp only [Reset, std_copy, std_fill, rom_start_addr, fontset_length]
  by_cases h : i.val < 0x50
  · rw [dif_pos ⟨Nat.zero_le _, by omega⟩, dif_pos h]
    rfl
  · rw [dif_neg (by omega), dif_neg h]

/-- C6: after `Reset()` the memory at and above 0x200 is unchanged, bytes
0..0x4F are the fontset table (glyph 0 is F0 90 90 90 F0 and glyph F is
F0 80 F0 80 80), bytes 0x50..0x1FF are zero, all registers, stack slots, key
latch entries and framebuffer cells are zero, both timers are 60, I = 0,
sp = 0 and PC = 0x200. -/
theorem Reset_postcondition (s : State) :
    (∀ i : Fin 4096, 0x200 ≤ i.val → (Reset s).memory i = s.memory i) ∧
    (∀ i : Fin 4096, i.val < 0x50 → fontset.get? i.val = some ((Reset s).memory i)) ∧
    ((Reset s).memory 0 = 0xF0 ∧ (Reset s).memory 1 = 0x90 ∧ (Reset s).memory 2 = 0x90 ∧
      (Reset s).memory 3 = 0x90 ∧ (Reset s).memory 4 = 0xF0) ∧
    ((Reset s).memory 0x4B = 0xF0 ∧ (Reset s).memory 0x4C = 0x80 ∧ (Reset s).memory 0x4D = 0xF0 ∧
      (Reset s).memory 0x4E = 0x80 ∧ (Reset s).memory 0x4F = 0x80) ∧
    (∀ i : Fin 4096, 0x50 ≤ i.val → i.val < 0x200 → (Reset s).memory i = 0) ∧
    (∀ i, (Reset s).v i = 0) ∧
    (∀ i, (Reset s).stack i = 0) ∧
    (∀ i, (Reset s).key i = false) ∧
    (∀ i, (Reset s).framebuffer i = 0) ∧
    (Reset s).delay_timer = 60 ∧ (Reset s).sound_timer = 60 ∧
    (Reset s).index = 0 ∧ (Reset s).sp = 0 ∧ (Reset s).pc = 0x200 := by
  refine ⟨?_, ?_, ⟨?_, ?_, ?_, ?_, ?_⟩, ⟨?_, ?_, ?_, ?_, ?_⟩, ?_, fun _ => rfl, fun _ => rfl,
    fun _ => rfl, fun _ => rfl, rfl, rfl, rfl, rfl, rfl⟩
  · intro i hi
    rw [Reset_memory, dif_neg (by omega), if_neg (by omega)]
  · intro i hi
    rw [Reset_memory, dif_pos hi]
    exact List.get?_eq_get _
  all_goals first
    | rfl
    | (intro i h1 h2; rw [Reset_memory, dif_neg (by omega), if_pos h2])

/-! ## `LoadRom` -/

/-- C9: for a ROM `rom` that the loader supplies, `LoadRom` returns false
and shows one error exactly when `rom` has more than 3584 bytes, and then
leaves the memory as it was; otherwise it returns true, shows nothing,
stores `rom[i]` at `0x200 + i` and leaves every other memory byte as it was. -/
theorem LoadRom_contract (s : State) (rom : List u8) :
    ((LoadRom (some rom) s).1 = false ↔ rom.length > 3584) ∧
    ((LoadRom (some rom) s).2.shown ≠ s.shown ↔ rom.length > 3584) ∧
    (rom.length > 3584 →
      (LoadRom (some rom) s).2.memory = s.memory ∧
      (LoadRom (some rom) s).2.shown =
        s.shown ++ [⟨.rom_too_large rom.length 3584, .Error⟩]) ∧
    (rom.length ≤ 3584 →
      (LoadRom (some rom) s).1 = true ∧
      (∀ i : Fin 4096, ∀ h : 0x200 ≤ i.val ∧ i.val < 0x200 + rom.length,
        (LoadRom (some rom) s).2.memory i = rom.get ⟨i.val - 0x200, by omega⟩) ∧
      (∀ i : Fin 4096, i.val < 0x200 ∨ 0x200 + rom.length ≤ i.val →
        (LoadRom (some rom) s).2.memory i = s.memory i)) := by
  by_cases h : rom.length > 3584
  · have e : LoadRom (some rom) s = (false, s.Show (.rom_too_large rom.length 3584) .Error) := by
      simp only [LoadRom, rom_start_addr]
      rw [if_pos h]
    rw [e]
    refine ⟨by simp [h], by simp [h, State.Show], fun _ => ⟨rfl, rfl⟩, fun h2 => by omega⟩
  · have e : LoadRom (some rom) s = (true, { s with memory := std_copy rom s.memory 0x200 }) := by
      simp only [LoadRom, rom_start_addr]
      rw [if_neg h]
    rw [e]
    refine ⟨by simp [h], by simp [h], fun h2 => absurd h2 h, fun _ => ⟨rfl, ?_, ?_⟩⟩
    · intro i hi
      simp only [std_copy]
      rw [dif_pos hi]
    · intro i hi
      simp only [std_copy]
      rw [dif_neg (by omega)]

/-! ## `StreamState` -/

theorem StreamState_sound_timer (stream : SerializationStream) (t : State) :
    (StreamState stream t).2.sound_timer = t.sound_timer := rfl

theorem StreamState_save_data (d : List Nat) (s : State) :
    (StreamState ⟨.save, d⟩ s).1.data =
      d ++ (List.ofFn s.framebuffer).map enc_u8 ++ (List.ofFn s.key).map enc_bool ++
        (List.ofFn s.memory).map enc_u8 ++ (List.ofFn s.stack).map enc_u16 ++
        (List.ofFn s.v).map enc_u8 ++ [enc_u8 s.delay_timer] ++ [enc_u8 s.delay_timer] ++
        [enc_u16 s.index] ++ [enc_u16 s.pc] ++ [enc_u16 s.sp] := rfl

theorem getD_block {α : Type} {n : Nat} (f : Fin n → α) (enc : α → Nat) (rest : List Nat)
    (i : Fin n) : ((List.ofFn f).map enc ++ rest).getD i.val 0 = enc (f i) := by
  have h : i.val < ((List.ofFn f).map enc).length := by simp
  rw [List.getD_append _ _ _ _ h, List.getD_eq_getElem _ _ h]
  simp

theorem drop_block {α : Type} {n : Nat} (f : Fin n → α) (enc : α → Nat) (rest : List Nat) :
    ((List.ofFn f).map enc ++ rest).drop n = rest := by
  have h : ((List.ofFn f).map enc).length = n := by simp
  exact List.drop_left' h

theorem to_u8_enc_u8 (b : u8) : to_u8 (enc_u8 b) = b := by
  apply Fin.ext; simp only [to_u8, enc_u8]; omega

theorem to_u16_enc_u16 (b : u16) : to_u16 (enc_u16 b) = b := by
  apply Fin.ext; simp only [to_u16, enc_u16]; omega

theorem dec_bool_enc_bool (b : Bool) : dec_bool (enc_bool b) = b := by
  cases b <;> rfl


theorem blocks_assoc (A B C D E : List Nat) (a b c e f : Nat) :
    [] ++ A ++ B ++ C ++ D ++ E ++ [a] ++ [b] ++ [c] ++ [e] ++ [f] =
      A ++ (B ++ (C ++ (D ++ (E ++ [a, b, c, e, f])))) := by
  simp

theorem save_data_blocks (s : State) :
    (StreamState ⟨.save, []⟩ s).1.data =
      (List.ofFn s.framebuffer).map enc_u8 ++ ((List.ofFn s.key).map enc_bool ++
        ((List.ofFn s.memory).map enc_u8 ++ ((List.ofFn s.stack).map enc_u16 ++
        ((List.ofFn s.v).map enc_u8 ++ [enc_u8 s.delay_timer, enc_u8 s.delay_timer,
          enc_u16 s.index, enc_u16 s.pc, enc_u16 s.sp])))) :=
  (StreamState_save_data [] s).trans (blocks_assoc _ _ _ _ _ _ _ _ _ _)

theorem save_then_load_eq (s t : State) :
    save_then_load s t = (StreamState ⟨.load, (StreamState ⟨.save, []⟩ s).1.data⟩ t).2 := rfl



theorem load_framebuffer (d : List Nat) (t : State) (i : Fin 2048) :
    (StreamState ⟨.load, d⟩ t).2.framebuffer i = to_u8 (d.getD i.val 0) := rfl

theorem load_key (d : List Nat) (t : State) (i : Fin 16) :
    (StreamState ⟨.load, d⟩ t).2.key i = dec_bool ((d.drop 2048).getD i.val 0) := rfl

theorem load_memory (d : List Nat) (t : State) (i : Fin 4096) :
    (StreamState ⟨.load, d⟩ t).2.memory i = to_u8 (((d.drop 2048).drop 16).getD i.val 0) := rfl

theorem load_stack (d : List Nat) (t : State) (i : Fin 16) :
    (StreamState ⟨.load, d⟩ t).2.stack i =
      to_u16 ((((d.drop 2048).drop 16).drop 4096).getD i.val 0) := rfl

theorem load_v (d : List Nat) (t : State) (i : Fin 16) :
    (StreamState ⟨.load, d⟩ t).2.v i =
      to_u8 (((((d.drop 2048).drop 16).drop 4096).drop 16).getD i.val 0) := rfl


theorem load_delay_timer (d : List Nat) (t : State) :
    (StreamState ⟨.load, d⟩ t).2.delay_timer =
      to_u8 (((((((d.drop 2048).drop 16).drop 4096).drop 16).drop 16).drop 1).getD 0 0) := rfl

theorem load_index (d : List Nat) (t : State) :
    (StreamState ⟨.load, d⟩ t).2.index =
      to_u16 ((((((((d.drop 2048).drop 16).drop 4096).drop 16).drop 16).drop 1).drop 1).getD
        0 0) := rfl

theorem load_pc (d : List Nat) (t : State) :
    (StreamState ⟨.load, d⟩ t).2.pc =
      to_u16 (((((((((d.drop 2048).drop 16).drop 4096).drop 16).drop 16).drop 1).drop 1).drop
        1).getD 0 0) := rfl

theorem load_sp (d : List Nat) (t : State) :
    (StreamState ⟨.load, d⟩ t).2.sp =
      to_u16 ((((((((((d.drop 2048).drop 16).drop 4096).drop 16).drop 16).drop 1).drop 1).drop
        1).drop 1).getD 0 0) := rfl

theorem save_then_load_fields (s t : State) :
    (save_then_load s t).framebuffer = s.framebuffer ∧
    (save_then_load s t).key = s.key ∧
    (save_then_load s t).memory = s.memory ∧
    (save_then_load s t).stack = s.stack ∧
    (save_then_load s t).v = s.v ∧
    (save_then_load s t).delay_timer = s.delay_timer ∧
    (save_then_load s t).index = s.index ∧
    (save_then_load s t).pc = s.pc ∧
    (save_then_load s t).sp = s.sp := by
  refine ⟨?_, ?_, ?_, ?_, ?_, ?_, ?_, ?_, ?_⟩
  · funext i
    refine (load_framebuffer (StreamState ⟨.save, []⟩ s).1.data t i).trans ?_
    rw [save_data_blocks, getD_block, to_u8_enc_u8]
  · funext i
    refine (load_key (StreamState ⟨.save, []⟩ s).1.data t i).trans ?_
    rw [save_data_blocks, drop_block, getD_block, dec_bool_enc_bool]
  · funext i
    refine (load_memory (StreamState ⟨.save, []⟩ s).1.data t i).trans ?_
    rw [save_data_blocks, drop_block, drop_block, getD_block, to_u8_enc_u8]
  · funext i
    refine (load_stack (StreamState ⟨.save, []⟩ s).1.data t i).trans ?_
    rw [save_data_blocks, drop_block, drop_block, drop_block, getD_block, to_u16_enc_u16]
  · funext i
    refine (load_v (StreamState ⟨.save, []⟩ s).1.data t i).trans ?_
    rw [save_data_blocks, drop_block, drop_block, drop_block, drop_block, getD_block,
      to_u8_enc_u8]
  · refine (load_delay_timer (StreamState ⟨.save, []⟩ s).1.data t).trans ?_
    rw [save_data_blocks, drop_block, drop_block, drop_block, drop_block, drop_block]
    exact to_u8_enc_u8 _
  · refine (load_index (StreamState ⟨.save, []⟩ s).1.data t).trans ?_
    rw [save_data_blocks, drop_block, drop_block, drop_block, drop_block, drop_block]
    exact to_u16_enc_u16 _
  · refine (load_pc (StreamState ⟨.save, []⟩ s).1.data t).trans ?_
    rw [save_data_blocks, drop_block, drop_block, drop_block, drop_block, drop_block]
    exact to_u16_enc_u16 _
  · refine (load_sp (StreamState ⟨.save, []⟩ s).1.data t).trans ?_
    rw [save_data_blocks, drop_block, drop_block, drop_block, drop_block, drop_block]
    exact to_u16_enc_u16 _

theorem save_then_load_sound_timer (s t : State) :
    (save_then_load s t).sound_timer = t.sound_timer :=
  (congrArg State.sound_timer (save_then_load_eq s t)).trans (StreamState_sound_timer _ t)

/-- C7 (failing input): saving the state after `Reset()` (sound timer 60) and
loading the stream into the blank state (sound timer 0) yields sound timer 0:
`StreamState` streams `delay_timer` twice and `sound_timer` never. -/
theorem save_then_load_loses_sound_timer :
    (Reset blank).sound_timer = 60 ∧ blank.sound_timer = 0 ∧
    (save_then_load (Reset blank) blank).sound_timer = 0 := by
  refine ⟨rfl, rfl, ?_⟩
  rw [save_then_load_sound_timer]
  rfl

/-! ## Unknown opcodes -/

/-- Outside the families 5 and 9, every 16-bit word that matches no
documented pattern is reported as a fatal unknown opcode and changes nothing
else. -/
theorem undocumented_reported (env : Env) (s : State) (opcode : Nat) (h16 : opcode < 0x10000)
    (hdoc : documented opcode = false) (h5 : opcode >>> 12 ≠ 5) (h9 : opcode >>> 12 ≠ 9) :
    DecodeAndExecuteInstruction env s opcode =
      .ok (s.Show (.unknown_opcode opcode) .Fatal) := by
  have hlt : opcode >>> 12 < 16 := by rw [shr_eq_div]; omega
  simp only [documented, Bool.or_eq_false_iff, Bool.and_eq_false_iff, beq_eq_false_iff_ne,
    ne_eq, beq_iff_eq] at hdoc
  obtain ⟨⟨⟨⟨⟨⟨⟨⟨⟨⟨⟨⟨⟨⟨⟨⟨hE0, hEE⟩, h1⟩, h2⟩, h3⟩, h4⟩, _⟩, h6⟩, h7⟩, h8⟩, _⟩, hA⟩, hB⟩, hC⟩, hD⟩,
    hE⟩, hF⟩ := hdoc
  have hc : opcode >>> 12 = 0 ∨ opcode >>> 12 = 8 ∨ opcode >>> 12 = 0xE ∨ opcode >>> 12 = 0xF := by
    omega
  rcases hc with hc | hc | hc | hc
  · simp [DecodeAndExecuteInstruction, hc, hE0, hEE]
  · simp only [hc, true_and, not_true_eq_false, false_or] at h8
    simp [DecodeAndExecuteInstruction, hc, exec_case_8, h8]
  · simp only [hc, true_and, not_true_eq_false, false_or] at hE
    simp [DecodeAndExecuteInstruction, hc, exec_case_E, hE]
  · simp only [hc, true_and, not_true_eq_false, false_or] at hF
    simp [DecodeAndExecuteInstruction, hc, exec_case_F, hF]

/-- The word 0x0123 is reported. -/
theorem undocumented_reported_0x0123 :
    DecodeAndExecuteInstruction quiet blank 0x0123 =
      .ok (blank.Show (.unknown_opcode 0x0123) .Fatal) :=
  undocumented_reported quiet blank 0x0123 (by decide) (by decide) (by decide) (by decide)

/-- C8 (failing input): 5001 and 9015 match no documented pattern, yet
nothing is shown and PC advances from 0x202 to 0x204: cases 5 and 9 of the
switch never look at the low nibble. -/
theorem undocumented_5xy1_9xy5_run :
    documented 0x5001 = false ∧ documented 0x9015 = false ∧ at_0x202.pc.val = 0x202 ∧
    (∃ s', DecodeAndExecuteInstruction quiet at_0x202 0x5001 = .ok s' ∧
      s'.shown = [] ∧ s'.pc.val = 0x204) ∧
    (∃ s', DecodeAndExecuteInstruction quiet (at_0x202.setV 1 1) 0x9015 = .ok s' ∧
      s'.shown = [] ∧ s'.pc.val = 0x204) := by
  refine ⟨by decide, by decide, by decide, ⟨_, rfl, rfl, ?_⟩, ⟨_, rfl, rfl, ?_⟩⟩ <;> decide

/-! ## Unmasked subscripts -/

/-- C3 (failing input): from the Reset state with `1FFC` at 0x200 and `3000`
at 0xFFC, two cycles leave PC = 0x1000 (the skip adds 2 without masking), so
the third fetch `memory[pc]` is outside the memory; and from the Reset state
with `AFFF 60FF F01E F033` at 0x200, three cycles leave I = 0x10FE, so the
first store of Fx33 in the fourth cycle is outside the memory. -/
theorem subscripts_leave_memory :
    (∃ s2, step_cycles quiet 2 rom_skip_at_end = .ok s2 ∧ s2.pc.val = 0x1000 ∧
      s2.pc.val &&& 0xFFF ≠ s2.pc.val ∧
      StepCycle quiet s2 = .error .out_of_bounds) ∧
    (∃ s3, step_cycles quiet 3 rom_bcd_past_end = .ok s3 ∧ s3.index.val = 0x10FE ∧
      s3.index.val &&& 0xFFF ≠ s3.index.val ∧ s3.pc.val = 0x206 ∧
      StepCycle quiet s3 = .error .out_of_bounds) := by
  refine ⟨⟨_, rfl, ?_, ?_, rfl⟩, ⟨_, rfl, ?_, ?_, ?_, rfl⟩⟩ <;> decide

/-! ## Dxyn -/

theorem draw_pixel_eq (vx vy pixel yline : Nat) (s : State) (xline : Nat) :
    draw_pixel vx vy pixel yline s xline =
      if (pixel &&& (0x80 >>> xline)) ≠ 0 then plot s (cell_pos vx vy yline xline) else s := rfl

theorem foldl_cond {α β σ : Type} (p : α → Bool) (f : α → β) (g : σ → β → σ) (l : List α)
    (s : σ) :
    l.foldl (fun s x => if p x = true then g s (f x) else s) s = ((l.filter p).map f).foldl g s := by
  induction l generalizing s with
  | nil => rfl
  | cons a l ih =>
    rw [List.foldl_cons, ih, List.filter_cons]
    by_cases h : p a = true
    · rw [if_pos h, if_pos h, List.map_cons, List.foldl_cons]
    · rw [if_neg h, if_neg h]

theorem draw_row_eq (vx vy : Nat) (s : State) (yline : Nat) :
    draw_row vx vy s yline =
      (row_hits vx vy (s.memory (mask12 (s.index.val + yline))).val yline).foldl plot s := by
  unfold draw_row row_hits
  rw [← foldl_cond]
  apply List.foldl_ext
  intro t xline _
  rw [draw_pixel_eq]
  simp only [decide_eq_true_eq]

theorem plot_memory (s : State) (p : Fin 2048) : (plot s p).memory = s.memory := by
  unfold plot; split <;> rfl

theorem plot_index (s : State) (p : Fin 2048) : (plot s p).index = s.index := by
  unfold plot; split <;> rfl

theorem plot_framebuffer (s : State) (p q : Fin 2048) :
    (plot s p).framebuffer q = if q = p then flip_cell (s.framebuffer q) else s.framebuffer q := by
  unfold plot
  by_cases h : q = p
  · subst h
    rw [if_pos rfl]
    split <;> simp [State.setV, flip_cell]
  · rw [if_neg h]
    split <;> simp [State.setV, Function.update_noteq h]

theorem plot_v (s : State) (p : Fin 2048) (i : Fin 16) :
    (plot s p).v i = if i = 0xF ∧ (s.framebuffer p).val ≠ 0 then 1 else s.v i := by
  unfold plot
  by_cases h : (s.framebuffer p).val ≠ 0
  · rw [if_pos h]
    by_cases hi : i = 0xF
    · subst hi; simp [State.setV, h]
    · simp [State.setV, hi, Function.update_noteq hi]
  · rw [if_neg h]
    simp [h]

theorem foldl_plot_memory (l : List (Fin 2048)) (s : State) :
    (l.foldl plot s).memory = s.memory := by
  induction l generalizing s with
  | nil => rfl
  | cons a l ih => rw [List.foldl_cons, ih, plot_memory]

theorem foldl_plot_index (l : List (Fin 2048)) (s : State) :
    (l.foldl plot s).index = s.index := by
  induction l generalizing s with
  | nil => rfl
  | cons a l ih => rw [List.foldl_cons, ih, plot_index]

theorem foldl_draw_row (vx vy : Nat) (rows : List Nat) (s : State) :
    rows.foldl (draw_row vx vy) s =
      (rows.flatMap
        (fun yline => row_hits vx vy (s.memory (mask12 (s.index.val + yline))).val yline)).foldl
        plot s := by
  induction rows generalizing s with
  | nil => rfl
  | cons r rows ih =>
    rw [List.foldl_cons, ih, List.flatMap_cons, List.foldl_append, draw_row_eq,
      foldl_plot_memory, foldl_plot_index]

theorem exec_case_D_eq (s : State) (opcode : Nat) :
    exec_case_D s opcode =
      (sprite_hits s.memory s.index.val (s.v (GetX opcode)).val (s.v (GetY opcode)).val
        (opcode &&& 0xF)).foldl plot (s.setV 0xF 0) := by
  unfold exec_case_D sprite_hits
  exact foldl_draw_row _ _ _ _

theorem xor_0xFF_lt (n : Nat) (h : n < 256) : n ^^^ 0xFF < 256 :=
  Nat.xor_lt_two_pow (n := 8) h (by decide)

theorem flip_cell_val (b : u8) : (flip_cell b).val = b.val ^^^ 0xFF := by
  simp only [flip_cell, to_u8]
  exact Nat.mod_eq_of_lt (xor_0xFF_lt _ b.isLt)

theorem flip_cell_flip_cell (b : u8) : flip_cell (flip_cell b) = b := by
  apply Fin.ext
  rw [flip_cell_val, flip_cell_val, Nat.xor_assoc, Nat.xor_self, Nat.xor_zero]

theorem foldl_plot_framebuffer (l : List (Fin 2048)) (s : State) (q : Fin 2048) :
    (l.foldl plot s).framebuffer q =
      if l.count q % 2 = 0 then s.framebuffer q else flip_cell (s.framebuffer q) := by
  induction l generalizing s with
  | nil => rfl
  | cons a l ih =>
    rw [List.foldl_cons, ih, plot_framebuffer]
    by_cases h : q = a
    · subst h
      rw [if_pos rfl, List.count_cons_self, flip_cell_flip_cell]
      by_cases hc : l.count q % 2 = 0
      · rw [if_pos hc, if_neg (by omega)]
      · rw [if_neg hc, if_pos (by omega)]
    · rw [if_neg h, List.count_cons_of_ne h]

theorem foldl_plot_v_other (l : List (Fin 2048)) (s : State) (i : Fin 16) (hi : i ≠ 0xF) :
    (l.foldl plot s).v i = s.v i := by
  induction l generalizing s with
  | nil => rfl
  | cons a l ih =>
    rw [List.foldl_cons, ih, plot_v, if_neg (fun h => hi h.1)]

theorem foldl_plot_vF_keep (l : List (Fin 2048)) (s : State) (h1 : s.v 0xF = 1) :
    (l.foldl plot s).v 0xF = 1 := by
  induction l generalizing s with
  | nil => exact h1
  | cons a l ih =>
    rw [List.foldl_cons]
    apply ih
    rw [plot_v]
    split
    · rfl
    · exact h1

theorem foldl_plot_vF_clear (l : List (Fin 2048)) (s : State) (hl : l.Nodup)
    (h0 : ∀ p ∈ l, s.framebuffer p = 0) : (l.foldl plot s).v 0xF = s.v 0xF := by
  induction l generalizing s with
  | nil => rfl
  | cons a l ih =>
    have ha : s.framebuffer a = 0 := h0 a (List.mem_cons_self a l)
    have hnd := List.nodup_cons.mp hl
    rw [List.foldl_cons, ih (plot s a) hnd.2]
    · rw [plot_v, if_neg]
      rw [ha]
      simp
    · intro p hp
      have hne : p ≠ a := fun h => hnd.1 (h ▸ hp)
      rw [plot_framebuffer, if_neg hne]
      exact h0 p (List.mem_cons_of_mem a hp)

theorem foldl_plot_vF_set (l : List (Fin 2048)) (s : State) (hl : l.Nodup)
    (h1 : ∃ p ∈ l, s.framebuffer p ≠ 0) : (l.foldl plot s).v 0xF = 1 := by
  induction l generalizing s with
  | nil =>
    obtain ⟨p, hp, _⟩ := h1
    exact absurd hp (List.not_mem_nil p)
  | cons a l ih =>
    have hnd := List.nodup_cons.mp hl
    obtain ⟨p, hp, hne0⟩ := h1
    rw [List.foldl_cons]
    rcases List.mem_cons.mp hp with hpa | hpl
    · subst hpa
      apply foldl_plot_vF_keep
      rw [plot_v, if_pos]
      exact ⟨rfl, fun h => hne0 (Fin.ext h)⟩
    · apply ih (plot s a) hnd.2
      refine ⟨p, hpl, ?_⟩
      have hne : p ≠ a := fun h => hnd.1 (h ▸ hpl)
      rw [plot_framebuffer, if_neg hne]
      exact hne0

theorem cell_pos_inj (vx vy r1 c1 r2 c2 : Nat) (hr1 : r1 < 16) (hr2 : r2 < 16)
    (hc1 : c1 < 8) (hc2 : c2 < 8) (h : cell_pos vx vy r1 c1 = cell_pos vx vy r2 c2) :
    r1 = r2 ∧ c1 = c2 := by
  have h' := congrArg Fin.val h
  simp only [cell_pos, framebuffer_size] at h'
  omega

theorem mem_row_hits {vx vy pixel yline : Nat} {p : Fin 2048}
    (h : p ∈ row_hits vx vy pixel yline) :
    ∃ xline, xline < 8 ∧ (pixel &&& (0x80 >>> xline)) ≠ 0 ∧ p = cell_pos vx vy yline xline := by
  simp only [row_hits, List.mem_map, List.mem_filter, List.mem_range, decide_eq_true_eq] at h
  obtain ⟨xline, ⟨h1, h2⟩, h3⟩ := h
  exact ⟨xline, h1, h2, h3.symm⟩

theorem row_hits_nodup (vx vy pixel yline : Nat) : (row_hits vx vy pixel yline).Nodup := by
  unfold row_hits
  apply List.Nodup.map_on
  · intro c1 h1 c2 h2 h
    simp only [List.mem_filter, List.mem_range] at h1 h2
    have hv := congrArg Fin.val h
    simp only [cell_pos, framebuffer_size] at hv
    omega
  · exact List.Nodup.filter _ (List.nodup_range 8)

theorem sprite_hits_nodup (memory : Fin 4096 → u8) (index vx vy height : Nat)
    (hh : height ≤ 16) : (sprite_hits memory index vx vy height).Nodup := by
  unfold sprite_hits
  rw [List.nodup_flatMap]
  refine ⟨fun r _ => row_hits_nodup _ _ _ _, ?_⟩
  refine List.Pairwise.imp_of_mem ?_ (List.nodup_range height)
  intro a b ha hb hab
  simp only [List.mem_range] at ha hb
  show List.Disjoint _ _
  intro p hpa hpb
  obtain ⟨c1, hc1, _, e1⟩ := mem_row_hits hpa
  obtain ⟨c2, hc2, _, e2⟩ := mem_row_hits hpb
  have := cell_pos_inj vx vy a c1 b c2 (by omega) (by omega) hc1 hc2 (e1.symm.trans e2)
  exact hab this.1

theorem exec_Dxyn (env : Env) (s : State) (x y n : Fin 16) :
    DecodeAndExecuteInstruction env s (word 0xD x y n) =
      .ok ((sprite_hits s.memory s.index.val (s.v x).val (s.v y).val n.val).foldl plot
        (s.setV 0xF 0)) := by
  have hc := word_shr12 0xD x y n n.isLt
  have e := exec_case_D_eq s (word 0xD x y n)
  rw [word_GetX 0xD x y n n.isLt, word_GetY 0xD x y n n.isLt,
    word_and_0xF 0xD x y n n.isLt] at e
  simp only [DecodeAndExecuteInstruction, hc]
  simp only [e]
  simp

/-- C5: for x and y other than F, executing Dxyn twice in succession leaves
every framebuffer cell equal to its value before the first execution. -/
theorem draw_twice_restores (env : Env) (s : State) (x y n : Fin 16)
    (hx : x ≠ 0xF) (hy : y ≠ 0xF) :
    ∃ s1 s2, DecodeAndExecuteInstruction env s (word 0xD x y n) = .ok s1 ∧
      DecodeAndExecuteInstruction env s1 (word 0xD x y n) = .ok s2 ∧
      ∀ p, s2.framebuffer p = s.framebuffer p := by
  refine ⟨_, _, exec_Dxyn env s x y n, exec_Dxyn env _ x y n, ?_⟩
  intro p
  rw [foldl_plot_memory, foldl_plot_index, foldl_plot_v_other _ _ x hx,
    foldl_plot_v_other _ _ y hy]
  have e1 : (s.setV 0xF 0).memory = s.memory := rfl
  have e2 : (s.setV 0xF 0).index = s.index := rfl
  have e3 : (s.setV 0xF 0).v x = s.v x := by simp [State.setV, Function.update_noteq hx]
  have e4 : (s.setV 0xF 0).v y = s.v y := by simp [State.setV, Function.update_noteq hy]
  rw [e1, e2, e3, e4, foldl_plot_framebuffer]
  have e5 : ∀ t : State, (t.setV 0xF 0).framebuffer = t.framebuffer := fun _ => rfl
  rw [e5, foldl_plot_framebuffer, e5]
  by_cases hc : (sprite_hits s.memory s.index.val (s.v x).val (s.v y).val n.val).count p % 2 = 0
  · rw [if_pos hc, if_pos hc]
  · rw [if_neg hc, if_neg hc, flip_cell_flip_cell]

/-- C5 (witness): the glyph of digit 0 drawn twice at (V0, V1) = (0, 0) on
the Reset state. -/
theorem draw_twice_restores_after_reset :
    ∃ s1 s2, DecodeAndExecuteInstruction quiet (Reset blank) (word 0xD 0 1 5) = .ok s1 ∧
      DecodeAndExecuteInstruction quiet s1 (word 0xD 0 1 5) = .ok s2 ∧
      ∀ p, s2.framebuffer p = (Reset blank).framebuffer p :=
  draw_twice_restores quiet (Reset blank) 0 1 5 (by decide) (by decide)

/-! ## 8xy6 and 8xyE -/

theorem exec_8xy6 (env : Env) (s : State) (x y : Fin 16) :
    DecodeAndExecuteInstruction env s (word 8 x y 6) =
      .ok ((s.setV 0xF (to_u8 ((s.v x).val &&& 0x01))).setV x
        (to_u8 (((s.setV 0xF (to_u8 ((s.v x).val &&& 0x01))).v x).val >>> 1))) := by
  simp only [DecodeAndExecuteInstruction, exec_case_8, word_shr12 8 x y 6 (by decide),
    word_GetX 8 x y 6 (by decide), word_GetY 8 x y 6 (by decide), word_and_0xF 8 x y 6 (by decide)]
  simp

theorem exec_8xyE (env : Env) (s : State) (x y : Fin 16) :
    DecodeAndExecuteInstruction env s (word 8 x y 0xE) =
      .ok ((s.setV 0xF (to_u8 ((s.v x).val >>> 7))).setV x
        (to_u8 (((s.setV 0xF (to_u8 ((s.v x).val >>> 7))).v x).val <<< 1))) := by
  simp only [DecodeAndExecuteInstruction, exec_case_8, word_shr12 8 x y 0xE (by decide),
    word_GetX 8 x y 0xE (by decide), word_GetY 8 x y 0xE (by decide),
    word_and_0xF 8 x y 0xE (by decide)]
  simp

/-- C11 (as amended): 8xy6 and 8xyE write the bit shifted out to VF first and
shift second.  When x is not F, VF ends as the least significant bit of
Vx_before after 8xy6 and as bit 7 of Vx_before after 8xyE; when x = F the
shift overwrites the flag, and VF ends as 0 after 8xy6 and as twice bit 7 of
VF_before after 8xyE. -/
theorem shift_flag_first (env : Env) (s : State) (x y : Fin 16) :
    (∃ s', DecodeAndExecuteInstruction env s (word 8 x y 6) = .ok s' ∧
      (x ≠ 0xF → (s'.v 0xF).val = (s.v x).val % 2) ∧
      (x = 0xF → (s'.v 0xF).val = 0)) ∧
    (∃ s', DecodeAndExecuteInstruction env s (word 8 x y 0xE) = .ok s' ∧
      (x ≠ 0xF → (s'.v 0xF).val = (s.v x).val / 128) ∧
      (x = 0xF → (s'.v 0xF).val = 2 * ((s.v x).val / 128))) := by
  have hx := (s.v x).isLt
  have h1 : (s.v x).val &&& 0x01 = (s.v x).val % 2 := Nat.and_pow_two_sub_one_eq_mod _ 1
  refine ⟨⟨_, exec_8xy6 env s x y, ?_, ?_⟩, ⟨_, exec_8xyE env s x y, ?_, ?_⟩⟩
  · intro h
    simp only [State.setV, Function.update_noteq (Ne.symm h), Function.update_same, to_u8, h1]
    omega
  · intro h
    subst h
    simp only [State.setV, Function.update_same, to_u8, h1, shr_eq_div]
    omega
  · intro h
    simp only [State.setV, Function.update_noteq (Ne.symm h), Function.update_same, to_u8,
      shr_eq_div]
    omega
  · intro h
    subst h
    simp only [State.setV, Function.update_same, to_u8, shr_eq_div, Nat.shiftLeft_eq]
    omega

/-- C11 (counterexample): with VF = 1, 8F06 leaves VF = 0 although the least
significant bit of VF_before is 1; with VF = 0x80, 8F0E leaves VF = 2 although
bit 7 of VF_before is 1. -/
theorem shift_flag_lost :
    (∃ s', DecodeAndExecuteInstruction quiet (vf_is 1) (word 8 0xF 0 6) = .ok s' ∧
      ((vf_is 1).v 0xF).val % 2 = 1 ∧ (s'.v 0xF).val = 0) ∧
    (∃ s', DecodeAndExecuteInstruction quiet (vf_is 0x80) (word 8 0xF 0 0xE) = .ok s' ∧
      ((vf_is 0x80).v 0xF).val / 128 = 1 ∧ (s'.v 0xF).val = 2) := by
  refine ⟨⟨_, rfl, ?_, ?_⟩, ⟨_, rfl, ?_, ?_⟩⟩ <;> decide

/-! ## `UpdateTimers` -/

/-- C14: `UpdateTimers` maps the delay timer d to d - 1 if d > 0 and to 0 if
d = 0, the sound timer likewise, and leaves the registers, PC, I, the stack,
sp, the memory, the framebuffer and the key latch as they were. -/
theorem UpdateTimers_timers (s : State) :
    (UpdateTimers s).delay_timer.val =
      (if s.delay_timer.val > 0 then s.delay_timer.val - 1 else 0) ∧
    (UpdateTimers s).sound_timer.val =
      (if s.sound_timer.val > 0 then s.sound_timer.val - 1 else 0) ∧
    (UpdateTimers s).v = s.v ∧ (UpdateTimers s).pc = s.pc ∧ (UpdateTimers s).index = s.index ∧
    (UpdateTimers s).stack = s.stack ∧ (UpdateTimers s).sp = s.sp ∧
    (UpdateTimers s).memory = s.memory ∧ (UpdateTimers s).framebuffer = s.framebuffer ∧
    (UpdateTimers s).key = s.key := by
  have hd := s.delay_timer.isLt
  have hs := s.sound_timer.isLt
  unfold UpdateTimers
  by_cases h1 : s.delay_timer.val > 0 <;> by_cases h2 : s.sound_timer.val > 0 <;>
    simp only [h1, h2, if_true, if_false, int_to_u8, true_and, and_true] <;>
    omega

/-- C15 (as amended): `UpdateTimers` calls `Audio::PlayFile` once when the
sound timer is nonzero before the decrement of that same call, and not at all
when it is zero. -/
theorem UpdateTimers_play (s : State) :
    (UpdateTimers s).played = s.played + (if s.sound_timer.val > 0 then 1 else 0) := by
  unfold UpdateTimers
  by_cases h1 : s.delay_timer.val > 0 <;> by_cases h2 : s.sound_timer.val > 0 <;>
    simp [h1, h2]

/-- C15 (counterexample): with the sound timer at 1, `UpdateTimers` calls
`Audio::PlayFile` although the sound timer is 0 after the decrement. -/
theorem UpdateTimers_play_at_one :
    last_tick.sound_timer.val = 1 ∧ (UpdateTimers last_tick).sound_timer.val = 0 ∧
    (UpdateTimers last_tick).played = last_tick.played + 1 := by
  refine ⟨?_, ?_, ?_⟩ <;> decide

/-! ## `Initialize` -/

theorem Initialize_memory (s : State) (i : Fin 4096) : (Initialize s).memory i = 0 := rfl

/-- C20 (failing input): after `Initialize()` on the blank state memory byte
0 is 0, while the fontset table and the state after `Reset()` have 0xF0
there: `memory.fill(0)` runs after `Reset()` and wipes the fontset. -/
theorem Initialize_wipes_fontset :
    (Initialize blank).memory 0 = 0 ∧ fontset.get? 0 = some 0xF0 ∧
    (Reset blank).memory 0 = 0xF0 ∧
    ∀ i : Fin 4096, (Initialize blank).memory i = 0 := by
  refine ⟨rfl, rfl, rfl, fun i => Initialize_memory blank i⟩

/-! ## Ex9E and ExA1 -/

theorem word_nat_shr12 (c x y n : Nat) (hx : x < 16) (hy : y < 16) (hn : n < 16) :
    word c x y n >>> 12 = c := by
  simp only [word, shr_eq_div]; omega

theorem word_nat_GetX (c : Nat) (x : Fin 16) (y n : Nat) (hy : y < 16) (hn : n < 16) :
    GetX (word c x y n) = x := by
  apply Fin.ext; simp only [GetX, word, shr_eq_div, and_0xF]; omega

theorem word_nat_and_0xFF (c x y n : Nat) (hy : y < 16) (hn : n < 16) :
    word c x y n &&& 0xFF = y * 16 + n := by
  simp only [word, and_0xFF]; omega

theorem exec_Ex9E (env : Env) (s : State) (x : Fin 16) :
    DecodeAndExecuteInstruction env s (word 0xE x 9 0xE) =
      if h : (s.v x).val < 16 then
        if s.key ⟨(s.v x).val, h⟩ then .ok { s with pc := to_u16 (s.pc.val + 2) } else .ok s
      else .error .out_of_bounds := by
  have hc := word_nat_shr12 0xE x 9 0xE x.isLt (by decide) (by decide)
  have hk := word_nat_and_0xFF 0xE x 9 0xE (by decide) (by decide)
  have hx := word_nat_GetX 0xE x 9 0xE (by decide) (by decide)
  simp only [DecodeAndExecuteInstruction, hc, exec_case_E, hk, hx]
  simp

theorem exec_ExA1 (env : Env) (s : State) (x : Fin 16) :
    DecodeAndExecuteInstruction env s (word 0xE x 0xA 1) =
      if h : (s.v x).val < 16 then
        if !(s.key ⟨(s.v x).val, h⟩) then .ok { s with pc := to_u16 (s.pc.val + 2) } else .ok s
      else .error .out_of_bounds := by
  have hc := word_nat_shr12 0xE x 0xA 1 x.isLt (by decide) (by decide)
  have hk := word_nat_and_0xFF 0xE x 0xA 1 (by decide) (by decide)
  have hx := word_nat_GetX 0xE x 0xA 1 (by decide) (by decide)
  simp only [DecodeAndExecuteInstruction, hc, exec_case_E, hk, hx]
  simp

/-- While Vx is a key number (at most 15), Ex9E adds 2 to PC exactly when
that key is pressed and ExA1 exactly when it is not, and nothing else
changes; for Vx above 15 both subscript the key latch past its 16 entries. -/
theorem key_skips (env : Env) (s : State) (x : Fin 16) :
    (∀ h : (s.v x).val < 16,
      DecodeAndExecuteInstruction env s (word 0xE x 9 0xE) =
        .ok { s with pc := if s.key ⟨(s.v x).val, h⟩ then to_u16 (s.pc.val + 2) else s.pc } ∧
      DecodeAndExecuteInstruction env s (word 0xE x 0xA 1) =
        .ok { s with pc := if s.key ⟨(s.v x).val, h⟩ then s.pc else to_u16 (s.pc.val + 2) }) ∧
    (16 ≤ (s.v x).val →
      DecodeAndExecuteInstruction env s (word 0xE x 9 0xE) = .error .out_of_bounds ∧
      DecodeAndExecuteInstruction env s (word 0xE x 0xA 1) = .error .out_of_bounds) := by
  rw [exec_Ex9E, exec_ExA1]
  refine ⟨fun h => ?_, fun h => ?_⟩
  · rw [dif_pos h, dif_pos h]
    cases hk : s.key ⟨(s.v x).val, h⟩ <;> simp
  · rw [dif_neg (by omega), dif_neg (by omega)]
    exact ⟨rfl, rfl⟩

/-- C19 (failing input): with V0 = 0x10, E09E and E0A1 subscript the
16-entry key latch at 16. -/
theorem key_skips_past_latch :
    (key_16.v 0).val = 16 ∧
    DecodeAndExecuteInstruction quiet key_16 (word 0xE 0 9 0xE) = .error .out_of_bounds ∧
    DecodeAndExecuteInstruction quiet key_16 (word 0xE 0 0xA 1) = .error .out_of_bounds := by
  refine ⟨by decide, rfl, rfl⟩

/-! ## Fx33 -/

theorem exec_Fx33 (env : Env) (s : State) (x : Fin 16) (hI : s.index.val + 2 < 4096) :
    DecodeAndExecuteInstruction env s (word 0xF x 3 3) =
      .ok (((s.setMem ⟨s.index.val, by omega⟩ (to_u8 ((s.v x).val / 100))).setMem
        ⟨s.index.val + 1, by omega⟩ (to_u8 (((s.v x).val / 10) % 10))).setMem
        ⟨s.index.val + 2, hI⟩ (to_u8 ((s.v x).val % 10))) := by
  have hc := word_nat_shr12 0xF x 3 3 x.isLt (by decide) (by decide)
  have hk := word_nat_and_0xFF 0xF x 3 3 (by decide) (by decide)
  have hx := word_nat_GetX 0xF x 3 3 (by decide) (by decide)
  have h0 : s.index.val < 4096 := by omega
  have h1 : s.index.val + 1 < 4096 := by omega
  simp only [DecodeAndExecuteInstruction, hc, exec_case_F, hk, hx]
  simp [State.setMem, h0, h1, hI]

/-- C16: for I <= 0xFFD, after Fx33 the bytes h, t, o at I, I + 1, I + 2 lie
in 0..9 and satisfy 100 * h + 10 * t + o = Vx, and every other memory byte,
every register, I, PC, the stack and the framebuffer are as before. -/
theorem bcd_store (env : Env) (s : State) (x : Fin 16) (hI : s.index.val ≤ 0xFFD) :
    ∃ s', DecodeAndExecuteInstruction env s (word 0xF x 3 3) = .ok s' ∧
      (s'.memory ⟨s.index.val, by omega⟩).val ≤ 9 ∧
      (s'.memory ⟨s.index.val + 1, by omega⟩).val ≤ 9 ∧
      (s'.memory ⟨s.index.val + 2, by omega⟩).val ≤ 9 ∧
      100 * (s'.memory ⟨s.index.val, by omega⟩).val +
        10 * (s'.memory ⟨s.index.val + 1, by omega⟩).val +
        (s'.memory ⟨s.index.val + 2, by omega⟩).val = (s.v x).val ∧
      (∀ j : Fin 4096, j.val ≠ s.index.val → j.val ≠ s.index.val + 1 →
        j.val ≠ s.index.val + 2 → s'.memory j = s.memory j) ∧
      s'.v = s.v ∧ s'.index = s.index ∧ s'.pc = s.pc ∧ s'.stack = s.stack ∧
      s'.framebuffer = s.framebuffer := by
  have hv := (s.v x).isLt
  have hI2 : s.index.val + 2 < 4096 := by omega
  refine ⟨_, exec_Fx33 env s x hI2, ?_, ?_, ?_, ?_, ?_, rfl, rfl, rfl, rfl, rfl⟩
  · simp [State.setMem, Function.update_apply, to_u8]
    omega
  · simp [State.setMem, Function.update_apply, to_u8]
    omega
  · simp [State.setMem, Function.update_apply, to_u8]
    omega
  · simp [State.setMem, Function.update_apply, to_u8]
    omega
  · intro j h0 h1 h2
    have e0 : j ≠ ⟨s.index.val, by omega⟩ := fun h => h0 (congrArg Fin.val h)
    have e1 : j ≠ ⟨s.index.val + 1, by omega⟩ := fun h => h1 (congrArg Fin.val h)
    have e2 : j ≠ ⟨s.index.val + 2, by omega⟩ := fun h => h2 (congrArg Fin.val h)
    simp [State.setMem, Function.update_noteq e0, Function.update_noteq e1,
      Function.update_noteq e2]

/-- C16 (witness): with V3 = 254 and I = 0x300, F333 stores 2, 5, 4 at 0x300,
0x301, 0x302. -/
theorem bcd_store_254 :
    bcd_254.index.val = 0x300 ∧ (bcd_254.v 3).val = 254 ∧
    ∃ s', DecodeAndExecuteInstruction quiet bcd_254 (word 0xF 3 3 3) = .ok s' ∧
      (s'.memory 0x300).val = 2 ∧ (s'.memory 0x301).val = 5 ∧ (s'.memory 0x302).val = 4 ∧
      s'.memory 0x303 = bcd_254.memory 0x303 ∧ s'.v = bcd_254.v ∧ s'.index = bcd_254.index := by
  obtain ⟨s', h, hh, ht, ho, hsum, hrest, hv, hi, _, _, _⟩ :=
    bcd_store quiet bcd_254 3 (by decide)
  have e0 : (s'.memory 0x300).val ≤ 9 := hh
  have e1 : (s'.memory 0x301).val ≤ 9 := ht
  have e2 : (s'.memory 0x302).val ≤ 9 := ho
  have es : 100 * (s'.memory 0x300).val + 10 * (s'.memory 0x301).val +
      (s'.memory 0x302).val = 254 := hsum
  refine ⟨rfl, rfl, s', h, by omega, by omega, by omega, ?_, hv, hi⟩
  exact hrest 0x303 (by decide) (by decide) (by decide)

/-! ## `StepCycle` on a known instruction -/

theorem or_shl8 (hi lo : Nat) (h : lo < 256) : (hi <<< 8) ||| lo = hi * 256 + lo := by
  have e := Nat.mul_add_lt_is_or (i := 8) h hi
  rw [Nat.shiftLeft_eq, Nat.mul_comm hi (2 ^ 8), ← e]

theorem mask12_of_lt (n : Nat) (h : n < 4096) : mask12 n = ⟨n, h⟩ := by
  apply Fin.ext
  simp only [mask12, and_0xFFF]
  omega

theorem StepCycle_at (env : Env) (s : State) (p hi lo : Nat) (hlt : p + 2 < 4096)
    (hp : s.pc.val = p) (hhi : ∀ h, (s.memory ⟨p, h⟩).val = hi)
    (hlo : ∀ h, (s.memory ⟨p + 1, h⟩).val = lo) :
    StepCycle env s =
      DecodeAndExecuteInstruction env { s with pc := to_u16 (p + 2) } (hi * 256 + lo) := by
  subst hp
  have h0 : s.pc.val < 4096 := by omega
  have h1 : s.pc.val + 1 < 4096 := by omega
  have hhi' := hhi h0
  have hlo' := hlo h1
  have hhib := (s.memory ⟨s.pc.val, h0⟩).isLt
  have hlob := (s.memory ⟨s.pc.val + 1, h1⟩).isLt
  have hop : (to_u16 (((s.memory ⟨s.pc.val, h0⟩).val <<< 8) |||
      (s.memory (mask12 (s.pc.val + 1))).val)).val = hi * 256 + lo := by
    rw [mask12_of_lt _ h1, or_shl8 _ _ hlob, hhi', hlo']
    simp only [to_u16]
    omega
  have hpc : (s.pc.val + 2) &&& 0xFFF = s.pc.val + 2 := by
    rw [and_0xFFF]; omega
  unfold StepCycle
  rw [dif_pos h0]
  simp only [hop, hpc]

theorem exec_6xkk (env : Env) (s : State) (x : Fin 16) (kk : Nat) (hk : kk < 256) :
    DecodeAndExecuteInstruction env s (0x6000 + 0x100 * x.val + kk) =
      .ok (s.setV x (to_u8 kk)) := by
  have hc : (0x6000 + 0x100 * x.val + kk) >>> 12 = 6 := by rw [shr_eq_div]; omega
  have hx : GetX (0x6000 + 0x100 * x.val + kk) = x := by
    apply Fin.ext; simp only [GetX, shr_eq_div, and_0xF]; omega
  have ha : (0x6000 + 0x100 * x.val + kk) &&& 0xFF = kk := by rw [and_0xFF]; omega
  simp only [DecodeAndExecuteInstruction, hc, hx, ha]
  simp

theorem to_u8_val (b : u8) : to_u8 b.val = b := by
  apply Fin.ext; simp only [to_u8]; omega

theorem Reset_memory_rom (s : State) (i : Fin 4096) (h : 0x200 ≤ i.val) :
    (Reset s).memory i = s.memory i := by
  rw [Reset_memory, dif_neg (by omega), if_neg (by omega)]

/-- C12: from the Reset state with `60 a 61 b 80 14` at 0x200..0x205, three
`StepCycle` calls succeed and leave V0 = (a + b) mod 256, V1 = b, VF = 1 if
a + b > 255 and 0 otherwise, PC = 0x206, and nothing shown. -/
theorem add_program (env : Env) (s : State) (a b : u8)
    (h0 : s.memory 0x200 = 0x60) (h1 : s.memory 0x201 = a) (h2 : s.memory 0x202 = 0x61)
    (h3 : s.memory 0x203 = b) (h4 : s.memory 0x204 = 0x80) (h5 : s.memory 0x205 = 0x14) :
    ∃ s3, step_cycles env 3 (Reset s) = .ok s3 ∧
      (s3.v 0).val = (a.val + b.val) % 256 ∧ s3.v 1 = b ∧
      (s3.v 0xF).val = (if a.val + b.val > 255 then 1 else 0) ∧
      s3.pc.val = 0x206 ∧ s3.shown = s.shown := by
  have m0 : (Reset s).memory 0x200 = 0x60 := (Reset_memory_rom s _ (by decide)).trans h0
  have m1 : (Reset s).memory 0x201 = a := (Reset_memory_rom s _ (by decide)).trans h1
  have m2 : (Reset s).memory 0x202 = 0x61 := (Reset_memory_rom s _ (by decide)).trans h2
  have m3 : (Reset s).memory 0x203 = b := (Reset_memory_rom s _ (by decide)).trans h3
  have m4 : (Reset s).memory 0x204 = 0x80 := (Reset_memory_rom s _ (by decide)).trans h4
  have m5 : (Reset s).memory 0x205 = 0x14 := (Reset_memory_rom s _ (by decide)).trans h5
  -- first cycle: LD V0, a
  have c1 : StepCycle env (Reset s) =
      .ok (({ Reset s with pc := to_u16 (0x200 + 2) } : State).setV 0 a) := by
    rw [StepCycle_at env (Reset s) 0x200 0x60 a.val (by decide) rfl
      (fun _ => congrArg Fin.val m0) (fun _ => congrArg Fin.val m1)]
    have e := exec_6xkk env { Reset s with pc := to_u16 (0x200 + 2) } 0 a.val a.isLt
    rw [to_u8_val] at e
    exact e
  -- second cycle: LD V1, b
  have c2 : StepCycle env (({ Reset s with pc := to_u16 (0x200 + 2) } : State).setV 0 a) =
      .ok ((({ Reset s with pc := to_u16 (0x202 + 2) } : State).setV 0 a).setV 1 b) := by
    rw [StepCycle_at env (({ Reset s with pc := to_u16 (0x200 + 2) } : State).setV 0 a)
      0x202 0x61 b.val (by decide) rfl
      (fun _ => congrArg Fin.val m2) (fun _ => congrArg Fin.val m3)]
    have e := exec_6xkk env
      { (({ Reset s with pc := to_u16 (0x200 + 2) } : State).setV 0 a) with
        pc := to_u16 (0x202 + 2) } 1 b.val b.isLt
    rw [to_u8_val] at e
    exact e
  -- third cycle: ADD V0, V1
  have c3 := StepCycle_at env ((({ Reset s with pc := to_u16 (0x202 + 2) } : State).setV 0 a).setV
    1 b) 0x204 0x80 0x14 (by decide) rfl (fun _ => congrArg Fin.val m4)
    (fun _ => congrArg Fin.val m5)
  have e3 := exec_8xy4 env
    { ((({ Reset s with pc := to_u16 (0x202 + 2) } : State).setV 0 a).setV 1 b) with
      pc := to_u16 (0x204 + 2) } 0 1
  have c3' := c3.trans e3
  have hrun := c3'
  rw [← show step_cycles env 3 (Reset s) = StepCycle env
    ((({ Reset s with pc := to_u16 (0x202 + 2) } : State).setV 0 a).setV 1 b) by
    simp only [step_cycles, c1, c2]
    cases StepCycle env ((({ Reset s with pc := to_u16 (0x202 + 2) } : State).setV 0 a).setV 1 b)
      <;> rfl] at hrun
  refine ⟨_, hrun, ?_, ?_, ?_, ?_, ?_⟩
  · simp [State.setV, Function.update_apply, to_u8]
  · simp [State.setV, Function.update_apply]
  · have ha := a.isLt
    have hb := b.isLt
    simp only [State.setV, Function.update_apply, of_bool_val]
    simp only [show ((0 : Fin 16) = 1) = False by decide, show ((1 : Fin 16) = 0) = False by decide,
      show ((15 : Fin 16) = 0) = False by decide, show ((0 : Fin 16) = 15) = False by decide,
      show ((1 : Fin 16) = 15) = False by decide, if_true, if_false]
    by_cases h : a.val + b.val > 255
    · rw [if_pos h, of_bool_val, if_pos (by omega)]
    · rw [if_neg h, of_bool_val, if_neg (by omega)]
  · rfl
  · rfl

/-- C12 (witness): a = 5, b = 3 gives V0 = 8 and VF = 0; a = 255, b = 1
gives V0 = 0 and VF = 1. -/
theorem add_program_5_3_and_255_1 :
    (∃ s3, step_cycles quiet 3 (Reset (add_rom 5 3)) = .ok s3 ∧
      (s3.v 0).val = 8 ∧ s3.v 1 = 3 ∧ (s3.v 0xF).val = 0 ∧ s3.pc.val = 0x206 ∧
      s3.shown = []) ∧
    (∃ s3, step_cycles quiet 3 (Reset (add_rom 255 1)) = .ok s3 ∧
      (s3.v 0).val = 0 ∧ s3.v 1 = 1 ∧ (s3.v 0xF).val = 1 ∧ s3.pc.val = 0x206 ∧
      s3.shown = []) := by
  constructor
  · obtain ⟨s3, h, e0, e1, eF, ep, es⟩ :=
      add_program quiet (add_rom 5 3) 5 3 rfl rfl rfl rfl rfl rfl
    exact ⟨s3, h, e0, e1, eF, ep, es⟩
  · obtain ⟨s3, h, e0, e1, eF, ep, es⟩ :=
      add_program quiet (add_rom 255 1) 255 1 rfl rfl rfl rfl rfl rfl
    exact ⟨s3, h, e0, e1, eF, ep, es⟩

/-! ## `Run` -/

theorem run_loop_eq (env : Env) (n : Nat) :
    ∀ (k i : Nat) (s : State), i + k = n → run_loop env n k i s = step_cycles env k s := by
  intro k
  induction k with
  | zero => intro i s _; rfl
  | succ k ih =>
    intro i s h
    have hi : i < n := by omega
    simp only [run_loop, step_cycles, if_pos hi]
    cases StepCycle env s with
    | error e => rfl
    | ok s1 => exact ih (i + 1) s1 (by omega)

theorem Run_eq (env : Env) (instructions_per_second : Nat) (s : State) :
    Run env instructions_per_second s =
      match step_cycles env (instructions_per_second / 60) s with
      | .ok s1 => .ok { UpdateTimers s1 with rendered := (UpdateTimers s1).rendered + 1 }
      | .error e => .error e := by
  simp only [Run]
  rw [run_loop_eq env (instructions_per_second / 60) (instructions_per_second / 60) 0 s
    (Nat.zero_add _)]

theorem UpdateTimers_shown (s : State) : (UpdateTimers s).shown = s.shown := by
  unfold UpdateTimers
  by_cases h1 : s.delay_timer.val > 0 <;> by_cases h2 : s.sound_timer.val > 0 <;> simp [h1, h2]

theorem UpdateTimers_framebuffer (s : State) : (UpdateTimers s).framebuffer = s.framebuffer := by
  unfold UpdateTimers
  by_cases h1 : s.delay_timer.val > 0 <;> by_cases h2 : s.sound_timer.val > 0 <;> simp [h1, h2]

theorem UpdateTimers_pc (s : State) : (UpdateTimers s).pc = s.pc := by
  unfold UpdateTimers
  by_cases h1 : s.delay_timer.val > 0 <;> by_cases h2 : s.sound_timer.val > 0 <;> simp [h1, h2]

theorem exec_00E0 (env : Env) (s : State) :
    DecodeAndExecuteInstruction env s 0x00E0 = .ok { s with framebuffer := fun _ => 0 } := by
  simp [DecodeAndExecuteInstruction]

theorem exec_1200 (env : Env) (s : State) :
    DecodeAndExecuteInstruction env s 0x1200 = .ok { s with pc := 0x200 } := by
  simp [DecodeAndExecuteInstruction]
  rfl

theorem cls_jp_steps (env : Env) :
    ∀ (n k : Nat) (t : State), k < 2 → t.pc.val = 0x200 + 2 * k →
      (∀ p, t.framebuffer p = 0) →
      t.memory 0x200 = 0x00 → t.memory 0x201 = 0xE0 → t.memory 0x202 = 0x12 →
      t.memory 0x203 = 0x00 →
      ∃ t', step_cycles env n t = .ok t' ∧ t'.pc.val = 0x200 + 2 * ((k + n) % 2) ∧
        (∀ p, t'.framebuffer p = 0) ∧ t'.shown = t.shown := by
  intro n
  induction n with
  | zero =>
    intro k t hk hpc hfb _ _ _ _
    refine ⟨t, rfl, ?_, hfb, rfl⟩
    rw [hpc]; omega
  | succ n ih =>
    intro k t hk hpc hfb m0 m1 m2 m3
    have hk' : k = 0 ∨ k = 1 := by omega
    rcases hk' with rfl | rfl
    · have c : StepCycle env t =
          .ok { ({ t with pc := to_u16 (0x200 + 2) } : State) with framebuffer := fun _ => 0 } := by
        rw [StepCycle_at env t 0x200 0x00 0xE0 (by decide) hpc
          (fun _ => congrArg Fin.val m0) (fun _ => congrArg Fin.val m1)]
        exact exec_00E0 env _
      obtain ⟨t', h, hp, hf, hs⟩ := ih 1
        { ({ t with pc := to_u16 (0x200 + 2) } : State) with framebuffer := fun _ => 0 }
        (by decide) rfl (fun _ => rfl) m0 m1 m2 m3
      refine ⟨t', ?_, ?_, hf, hs⟩
      · simp only [step_cycles, c]
        exact h
      · rw [hp]; omega
    · have c : StepCycle env t =
          .ok { ({ t with pc := to_u16 (0x202 + 2) } : State) with pc := 0x200 } := by
        rw [StepCycle_at env t 0x202 0x12 0x00 (by decide) hpc
          (fun _ => congrArg Fin.val m2) (fun _ => congrArg Fin.val m3)]
        exact exec_1200 env _
      obtain ⟨t', h, hp, hf, hs⟩ := ih 0
        { ({ t with pc := to_u16 (0x202 + 2) } : State) with pc := 0x200 }
        (by decide) rfl hfb m0 m1 m2 m3
      refine ⟨t', ?_, ?_, hf, hs⟩
      · simp only [step_cycles, c]
        exact h
      · rw [hp]; omega

/-- C13: for every state and every value of `instructions_per_second`, one
call of `Run` is exactly floor(instructions_per_second / 60) successive
`StepCycle` calls followed by `UpdateTimers` and one render; and from the
Reset state with `00 E0 12 00` at 0x200..0x203 these cycles succeed, show
nothing, leave every framebuffer cell zero, and leave PC = 0x200 when that
count is even and PC = 0x202 when it is odd. -/
theorem cls_jp_loop (env : Env) (s : State) (instructions_per_second : Nat)
    (h0 : s.memory 0x200 = 0x00) (h1 : s.memory 0x201 = 0xE0) (h2 : s.memory 0x202 = 0x12)
    (h3 : s.memory 0x203 = 0x00) :
    (∀ t0 : State, Run env instructions_per_second t0 =
      match step_cycles env (instructions_per_second / 60) t0 with
      | .ok t => .ok { UpdateTimers t with rendered := (UpdateTimers t).rendered + 1 }
      | .error e => .error e) ∧
    ∃ t s', step_cycles env (instructions_per_second / 60) (Reset s) = .ok t ∧
      Run env instructions_per_second (Reset s) = .ok s' ∧
      s' = { UpdateTimers t with rendered := (UpdateTimers t).rendered + 1 } ∧
      s'.shown = s.shown ∧ (∀ p, s'.framebuffer p = 0) ∧
      s'.pc.val = (if (instructions_per_second / 60) % 2 = 0 then 0x200 else 0x202) := by
  obtain ⟨t, ht, hp, hf, hs⟩ := cls_jp_steps env (instructions_per_second / 60) 0 (Reset s)
    (by decide) rfl (fun _ => rfl)
    ((Reset_memory_rom s _ (by decide)).trans h0) ((Reset_memory_rom s _ (by decide)).trans h1)
    ((Reset_memory_rom s _ (by decide)).trans h2) ((Reset_memory_rom s _ (by decide)).trans h3)
  refine ⟨fun t0 => Run_eq env instructions_per_second t0, t, _, ht, ?_, rfl, ?_, ?_, ?_⟩
  · rw [Run_eq, ht]
  · show (UpdateTimers t).shown = s.shown
    rw [UpdateTimers_shown, hs]
    rfl
  · intro p
    show (UpdateTimers t).framebuffer p = 0
    rw [UpdateTimers_framebuffer]
    exact hf p
  · show (UpdateTimers t).pc.val = _
    rw [UpdateTimers_pc, hp]
    split <;> omega

/-- C13 (witness): on the CLS/JP ROM, 0 Hz runs no cycle (PC = 0x200), 60 Hz
runs the CLS (PC = 0x202), 120 Hz runs the CLS and the JP (PC = 0x200) and
180 Hz a further CLS (PC = 0x202); and on the ROM `60 05 61 03 80 14`, whose
cycles each advance PC by 2, 180 Hz ends with PC = 0x206 and V0 = 8, which
only three cycles do. -/
theorem cls_jp_loop_at_0_60_120_180_Hz :
    (∃ s', Run quiet 0 (Reset cls_jp_rom) = .ok s' ∧ s'.shown = [] ∧
      (∀ p, s'.framebuffer p = 0) ∧ s'.pc.val = 0x200) ∧
    (∃ s', Run quiet 60 (Reset cls_jp_rom) = .ok s' ∧ s'.shown = [] ∧
      (∀ p, s'.framebuffer p = 0) ∧ s'.pc.val = 0x202) ∧
    (∃ s', Run quiet 120 (Reset cls_jp_rom) = .ok s' ∧ s'.shown = [] ∧
      (∀ p, s'.framebuffer p = 0) ∧ s'.pc.val = 0x200) ∧
    (∃ s', Run quiet 180 (Reset cls_jp_rom) = .ok s' ∧ s'.shown = [] ∧
      (∀ p, s'.framebuffer p = 0) ∧ s'.pc.val = 0x202) ∧
    (∃ s', Run quiet 180 (Reset (add_rom 5 3)) = .ok s' ∧ s'.pc.val = 0x206 ∧
      (s'.v 0).val = 8 ∧ s'.shown = []) := by
  refine ⟨?_, ?_, ?_, ?_, ?_⟩
  · obtain ⟨_, _, s', _, h, _, hs, hf, hp⟩ := cls_jp_loop quiet cls_jp_rom 0 rfl rfl rfl rfl
    exact ⟨s', h, hs, hf, hp⟩
  · obtain ⟨_, _, s', _, h, _, hs, hf, hp⟩ := cls_jp_loop quiet cls_jp_rom 60 rfl rfl rfl rfl
    exact ⟨s', h, hs, hf, hp⟩
  · obtain ⟨_, _, s', _, h, _, hs, hf, hp⟩ := cls_jp_loop quiet cls_jp_rom 120 rfl rfl rfl rfl
    exact ⟨s', h, hs, hf, hp⟩
  · obtain ⟨_, _, s', _, h, _, hs, hf, hp⟩ := cls_jp_loop quiet cls_jp_rom 180 rfl rfl rfl rfl
    exact ⟨s', h, hs, hf, hp⟩
  · obtain ⟨hrun, _⟩ := cls_jp_loop quiet cls_jp_rom 180 rfl rfl rfl rfl
    have e := hrun (Reset (add_rom 5 3))
    have e3 : step_cycles quiet (180 / 60) (Reset (add_rom 5 3)) =
        .ok ((((({ Reset (add_rom 5 3) with pc := to_u16 (0x204 + 2) } : State).setV 0 5).setV
          1 3).setV 0xF 0).setV 0 8) := rfl
    rw [e3] at e
    exact ⟨_, e, by decide, by decide, rfl⟩

/-! ## Fx55 and Fx65 -/

theorem exec_Fx55 (env : Env) (s : State) (x : Fin 16) :
    DecodeAndExecuteInstruction env s (word 0xF x 5 5) = .ok (store_loop (x.val + 1) s) := by
  have hc := word_nat_shr12 0xF x 5 5 x.isLt (by decide) (by decide)
  have hk := word_nat_and_0xFF 0xF x 5 5 (by decide) (by decide)
  have hx := word_nat_GetX 0xF x 5 5 (by decide) (by decide)
  simp only [DecodeAndExecuteInstruction, hc, exec_case_F, hk, hx]
  simp [store_loop]

theorem exec_Fx65 (env : Env) (s : State) (x : Fin 16) :
    DecodeAndExecuteInstruction env s (word 0xF x 6 5) = .ok (load_loop (x.val + 1) s) := by
  have hc := word_nat_shr12 0xF x 6 5 x.isLt (by decide) (by decide)
  have hk := word_nat_and_0xFF 0xF x 6 5 (by decide) (by decide)
  have hx := word_nat_GetX 0xF x 6 5 (by decide) (by decide)
  simp only [DecodeAndExecuteInstruction, hc, exec_case_F, hk, hx]
  simp [load_loop]

theorem store_loop_succ (n : Nat) (s : State) :
    store_loop (n + 1) s =
      (store_loop n s).setMem (mask12 ((store_loop n s).index.val + n))
        ((store_loop n s).v (reg n)) := by
  simp only [store_loop, List.range_succ, List.foldl_append, List.foldl_cons, List.foldl_nil]

theorem load_loop_succ (n : Nat) (s : State) :
    load_loop (n + 1) s =
      (load_loop n s).setV (reg n)
        ((load_loop n s).memory (mask12 ((load_loop n s).index.val + n))) := by
  simp only [load_loop, List.range_succ, List.foldl_append, List.foldl_cons, List.foldl_nil]

theorem store_loop_index (n : Nat) (s : State) : (store_loop n s).index = s.index := by
  induction n with
  | zero => rfl
  | succ n ih => rw [store_loop_succ]; exact ih

theorem store_loop_v (n : Nat) (s : State) : (store_loop n s).v = s.v := by
  induction n with
  | zero => rfl
  | succ n ih => rw [store_loop_succ]; exact ih

theorem load_loop_index (n : Nat) (s : State) : (load_loop n s).index = s.index := by
  induction n with
  | zero => rfl
  | succ n ih => rw [load_loop_succ]; exact ih

theorem load_loop_memory (n : Nat) (s : State) : (load_loop n s).memory = s.memory := by
  induction n with
  | zero => rfl
  | succ n ih => rw [load_loop_succ]; exact ih

theorem mask12_inj (base i j : Nat) (hi : i < 16) (hj : j < 16)
    (h : mask12 (base + i) = mask12 (base + j)) : i = j := by
  have h' := congrArg Fin.val h
  simp only [mask12, and_0xFFF] at h'
  omega

theorem reg_of_lt (i : Nat) (h : i < 16) : reg i = ⟨i, h⟩ := by
  apply Fin.ext
  simp only [reg]
  omega

theorem store_loop_memory (n : Nat) (s : State) (hn : n ≤ 16) :
    (∀ i, i < n → (store_loop n s).memory (mask12 (s.index.val + i)) = s.v (reg i)) ∧
    (∀ j, (∀ i, i < n → j ≠ mask12 (s.index.val + i)) →
      (store_loop n s).memory j = s.memory j) := by
  induction n with
  | zero =>
    exact ⟨fun i hi => absurd hi (Nat.not_lt_zero i), fun _ _ => rfl⟩
  | succ n ih =>
    obtain ⟨ih1, ih2⟩ := ih (by omega)
    rw [store_loop_succ, store_loop_index, store_loop_v]
    constructor
    · intro i hi
      by_cases hin : i = n
      · subst hin
        simp [State.setMem]
      · have hne : mask12 (s.index.val + i) ≠ mask12 (s.index.val + n) :=
          fun h => hin (mask12_inj _ i n (by omega) (by omega) h)
        simp only [State.setMem, Function.update_noteq hne]
        exact ih1 i (by omega)
    · intro j hj
      have hne : j ≠ mask12 (s.index.val + n) := hj n (by omega)
      simp only [State.setMem, Function.update_noteq hne]
      exact ih2 j (fun i hi => hj i (by omega))

theorem load_loop_v (n : Nat) (s : State) (hn : n ≤ 16) (r : Fin 16) :
    (load_loop n s).v r =
      if r.val < n then s.memory (mask12 (s.index.val + r.val)) else s.v r := by
  induction n with
  | zero => simp [load_loop]
  | succ n ih =>
    have ih' := ih (by omega)
    rw [load_loop_succ, load_loop_index, load_loop_memory, reg_of_lt n (by omega)]
    by_cases hr : r.val = n
    · subst hr
      simp [State.setV]
    · have hne : r ≠ ⟨n, by omega⟩ := fun h => hr (congrArg Fin.val h)
      simp only [State.setV, Function.update_noteq hne]
      rw [ih']
      by_cases hlt : r.val < n
      · rw [if_pos hlt, if_pos (by omega)]
      · rw [if_neg hlt, if_neg (by omega)]

/-- C17: Fx55 stores V_i at `memory[(I + i) & 0xFFF]` for every i in 0..x and
changes no other memory byte, no register and not I; and in any state with
that memory and that I, whatever its registers, Fx65 sets V_i back to the
stored value for every i in 0..x and leaves the registers above x, the memory
and I as they are. -/
theorem block_store_load (env : Env) (s : State) (x : Fin 16) :
    ∃ s1, DecodeAndExecuteInstruction env s (word 0xF x 5 5) = .ok s1 ∧
      (∀ i : Fin 16, i ≤ x → s1.memory (mask12 (s.index.val + i.val)) = s.v i) ∧
      (∀ j, (∀ i : Fin 16, i ≤ x → j ≠ mask12 (s.index.val + i.val)) →
        s1.memory j = s.memory j) ∧
      s1.v = s.v ∧ s1.index = s.index ∧
      ∀ s2 : State, s2.memory = s1.memory → s2.index = s1.index →
        ∃ s3, DecodeAndExecuteInstruction env s2 (word 0xF x 6 5) = .ok s3 ∧
          (∀ i : Fin 16, i ≤ x → s3.v i = s.v i) ∧
          (∀ i : Fin 16, x < i → s3.v i = s2.v i) ∧
          s3.memory = s2.memory ∧ s3.index = s2.index := by
  have hx := x.isLt
  obtain ⟨hm1, hm2⟩ := store_loop_memory (x.val + 1) s (by omega)
  have hstore : ∀ i : Fin 16, i ≤ x →
      (store_loop (x.val + 1) s).memory (mask12 (s.index.val + i.val)) = s.v i := by
    intro i hi
    have hi' : i.val ≤ x.val := hi
    rw [hm1 i.val (by omega), reg_of_lt i.val i.isLt]
  refine ⟨_, exec_Fx55 env s x, hstore, ?_, store_loop_v _ s, store_loop_index _ s, ?_⟩
  · intro j hj
    apply hm2
    intro i hi
    exact hj ⟨i, by omega⟩ (show i ≤ x.val by omega)
  · intro s2 hmem hidx
    refine ⟨_, exec_Fx65 env s2 x, ?_, ?_, load_loop_memory _ s2, load_loop_index _ s2⟩
    · intro i hi
      have hi' : i.val ≤ x.val := hi
      rw [load_loop_v _ s2 (by omega), if_pos (by omega), hmem, hidx, store_loop_index]
      exact hstore i hi
    · intro i hi
      have hi' : x.val < i.val := hi
      rw [load_loop_v _ s2 (by omega), if_neg (by omega)]

/-! ## Dxyn, cell by cell -/

theorem and_two_pow_ne_zero (n k : Nat) : n &&& 2 ^ k ≠ 0 ↔ n.testBit k = true := by
  constructor
  · intro h
    by_contra hb
    apply h
    apply Nat.eq_of_testBit_eq
    intro i
    rw [Nat.testBit_and, Nat.testBit_two_pow, Nat.zero_testBit]
    by_cases hki : k = i
    · subst hki
      simp [hb]
    · simp [hki]
  · intro hb h
    have e : (n &&& 2 ^ k).testBit k = true := by
      rw [Nat.testBit_and, Nat.testBit_two_pow, hb]
      simp
    rw [h, Nat.zero_testBit] at e
    exact Bool.noConfusion e

theorem sprite_bit_iff (pixel c : Nat) (hc : c < 8) :
    (pixel &&& (0x80 >>> c)) ≠ 0 ↔ pixel.testBit (7 - c) = true := by
  have e : 0x80 >>> c = 2 ^ (7 - c) := by
    interval_cases c <;> rfl
  rw [e]
  exact and_two_pow_ne_zero pixel (7 - c)

theorem mem_sprite_hits_iff (s : State) (x y : Fin 16) (n : Nat) (p : Fin 2048) :
    p ∈ sprite_hits s.memory s.index.val (s.v x).val (s.v y).val n ↔
      toggled_by_sprite s x y n p := by
  simp only [sprite_hits, row_hits, toggled_by_sprite, List.mem_flatMap, List.mem_map,
    List.mem_filter, List.mem_range, decide_eq_true_eq]
  constructor
  · rintro ⟨r, hr, c, ⟨hc, hbit⟩, rfl⟩
    refine ⟨r, c, hr, hc, (sprite_bit_iff _ c hc).mp hbit, ?_⟩
    simp only [cell_pos, framebuffer_size]
    omega
  · rintro ⟨r, c, hr, hc, hbit, hp⟩
    refine ⟨r, hr, c, ⟨hc, (sprite_bit_iff _ c hc).mpr hbit⟩, ?_⟩
    apply Fin.ext
    simp only [cell_pos, framebuffer_size]
    omega

theorem plot_pc (s : State) (p : Fin 2048) : (plot s p).pc = s.pc := by
  unfold plot; split <;> rfl

theorem foldl_plot_pc (l : List (Fin 2048)) (s : State) : (l.foldl plot s).pc = s.pc := by
  induction l generalizing s with
  | nil => rfl
  | cons a l ih => rw [List.foldl_cons, ih, plot_pc]

/-- C18: after Dxyn a framebuffer cell is XORed with 0xFF when it is one of
the cells `toggled_by_sprite` and is unchanged otherwise, and the memory, I,
PC and all registers other than VF are unchanged. -/
theorem draw_xor_wrapped (env : Env) (s : State) (x y n : Fin 16) :
    ∃ s', DecodeAndExecuteInstruction env s (word 0xD x y n) = .ok s' ∧
      (∀ p, toggled_by_sprite s x y n.val p →
        (s'.framebuffer p).val = (s.framebuffer p).val ^^^ 0xFF) ∧
      (∀ p, ¬ toggled_by_sprite s x y n.val p → s'.framebuffer p = s.framebuffer p) ∧
      s'.memory = s.memory ∧ s'.index = s.index ∧ s'.pc = s.pc ∧
      ∀ i, i ≠ 0xF → s'.v i = s.v i := by
  have hnd := sprite_hits_nodup s.memory s.index.val (s.v x).val (s.v y).val n.val
    (Nat.le_of_lt n.isLt)
  refine ⟨_, exec_Dxyn env s x y n, ?_, ?_, ?_, ?_, ?_, ?_⟩
  · intro p hp
    have hmem := (mem_sprite_hits_iff s x y n.val p).mpr hp
    rw [foldl_plot_framebuffer, List.count_eq_one_of_mem hnd hmem, if_neg (by decide)]
    exact flip_cell_val _
  · intro p hp
    have hmem : p ∉ sprite_hits s.memory s.index.val (s.v x).val (s.v y).val n.val :=
      fun h => hp ((mem_sprite_hits_iff s x y n.val p).mp h)
    rw [foldl_plot_framebuffer, List.count_eq_zero_of_not_mem hmem, if_pos rfl]
    rfl
  · rw [foldl_plot_memory]; rfl
  · rw [foldl_plot_index]; rfl
  · rw [foldl_plot_pc]; rfl
  · intro i hi
    rw [foldl_plot_v_other _ _ i hi]
    simp [State.setV, Function.update_noteq hi]

/-! ## Dxyn, collision flag -/

/-- C4: when every framebuffer cell is 0 or 0xFF, after Dxyn VF is 1 if some
cell that was nonzero before the instruction is zero after it, and VF is 0
otherwise; the cells that were nonzero before and are zero after are exactly
the cells toggled by the sprite that were nonzero before. -/
theorem draw_collision_flag (env : Env) (s : State) (x y n : Fin 16)
    (hfb : ∀ p, s.framebuffer p = 0 ∨ s.framebuffer p = 0xFF) :
    ∃ s', DecodeAndExecuteInstruction env s (word 0xD x y n) = .ok s' ∧
      ((∃ p, s.framebuffer p ≠ 0 ∧ s'.framebuffer p = 0) → s'.v 0xF = 1) ∧
      (¬ (∃ p, s.framebuffer p ≠ 0 ∧ s'.framebuffer p = 0) → s'.v 0xF = 0) ∧
      (∀ p, (s.framebuffer p ≠ 0 ∧ s'.framebuffer p = 0) ↔
        (toggled_by_sprite s x y n.val p ∧ s.framebuffer p ≠ 0)) := by
  have hnd := sprite_hits_nodup s.memory s.index.val (s.v x).val (s.v y).val n.val
    (Nat.le_of_lt n.isLt)
  have hcleared : ∀ p, p ∈ sprite_hits s.memory s.index.val (s.v x).val (s.v y).val n.val →
      s.framebuffer p ≠ 0 →
      ((sprite_hits s.memory s.index.val (s.v x).val (s.v y).val n.val).foldl plot
        (s.setV 0xF 0)).framebuffer p = 0 := by
    intro p hp hp0
    have hFF : s.framebuffer p = 0xFF := (hfb p).resolve_left hp0
    rw [foldl_plot_framebuffer, List.count_eq_one_of_mem hnd hp, if_neg (by decide)]
    show flip_cell (s.framebuffer p) = 0
    rw [hFF]
    rfl
  have hhit : ∀ p, s.framebuffer p ≠ 0 →
      ((sprite_hits s.memory s.index.val (s.v x).val (s.v y).val n.val).foldl plot
        (s.setV 0xF 0)).framebuffer p = 0 →
      p ∈ sprite_hits s.memory s.index.val (s.v x).val (s.v y).val n.val := by
    intro p hp0 hp1
    rw [foldl_plot_framebuffer] at hp1
    by_contra hmem
    rw [List.count_eq_zero_of_not_mem hmem, if_pos rfl] at hp1
    exact hp0 hp1
  refine ⟨_, exec_Dxyn env s x y n, ?_, ?_, ?_⟩
  · rintro ⟨p, hp0, hp1⟩
    exact foldl_plot_vF_set _ _ hnd ⟨p, hhit p hp0 hp1, hp0⟩
  · intro hno
    rw [foldl_plot_vF_clear _ _ hnd]
    · simp [State.setV]
    · intro p hp
      by_contra hp0
      exact hno ⟨p, hp0, hcleared p hp hp0⟩
  · intro p
    constructor
    · rintro ⟨hp0, hp1⟩
      exact ⟨(mem_sprite_hits_iff s x y n.val p).mp (hhit p hp0 hp1), hp0⟩
    · rintro ⟨hp, hp0⟩
      exact ⟨hp0, hcleared p ((mem_sprite_hits_iff s x y n.val p).mpr hp) hp0⟩

/-- C4 (witness): on the fully lit screen the glyph of digit 0 (first row
F0) drawn at (0, 0) toggles cell 0, so that lit cell is cleared and VF = 1. -/
theorem draw_collision_flag_on_lit_screen :
    (∀ p, lit_screen.framebuffer p = 0 ∨ lit_screen.framebuffer p = 0xFF) ∧
    toggled_by_sprite lit_screen 0 1 5 0 ∧ lit_screen.framebuffer 0 = 0xFF ∧
    ∃ s', DecodeAndExecuteInstruction quiet lit_screen (word 0xD 0 1 5) = .ok s' ∧
      s'.framebuffer 0 = 0 ∧ s'.v 0xF = 1 := by
  have hfb : ∀ p, lit_screen.framebuffer p = 0 ∨ lit_screen.framebuffer p = 0xFF :=
    fun _ => Or.inr rfl
  have ht : toggled_by_sprite lit_screen 0 1 5 0 :=
    ⟨0, 0, by decide, by decide, by decide, by decide⟩
  obtain ⟨s', h, h1, _, hiff⟩ := draw_collision_flag quiet lit_screen 0 1 5 hfb
  have h0 : lit_screen.framebuffer 0 ≠ 0 ∧ s'.framebuffer 0 = 0 :=
    (hiff 0).mpr ⟨ht, by decide⟩
  exact ⟨hfb, ht, rfl, s', h, h0.2, h1 ⟨0, h0⟩⟩

end CHIP8
